import Mathlib

/-! # Zabbix stress-test module: item handlers

A shallow embedding of `src/modules/zabbix_module_stress/zabbix_module_stress.c`.

Conventions of the embedding.

* C `int` is a Lean `Int` kept in the 32-bit two's-complement range by `wrap32`
  after every arithmetic operation; `zbx_uint64_t` is a `Nat` below `2 ^ 64`.
* A C string is the `String` of its characters before the terminating NUL.
* The process-wide generator behind `rand()` is the stream of the raw values it
  is going to return; a draw returns the head and leaves the tail.
* A handler returns `Except Fault Ret`: either the machine faults (integer
  division by zero, NULL dereference, access outside an array), or the handler
  returns its `int` status,
  the `AGENT_RESULT` it was handed, updated, and the generator state.
* A C `double` is the rational it denotes, every operation rounded to binary64.
-/

namespace ZabbixStress

/-! ## Host interface (`module.h`, `sysinc.h`) -/

/-- Status `SYSINFO_RET_OK` of the host's `module.h`. -/
def SYSINFO_RET_OK : Int := 0

/-- Status `SYSINFO_RET_FAIL` of the host's `module.h`. -/
def SYSINFO_RET_FAIL : Int := 1

/-- Result flag `AR_UINT64` of the host's `module.h`. -/
def AR_UINT64 : Nat := 0x01

/-- Result flag `AR_DOUBLE` of the host's `module.h`. -/
def AR_DOUBLE : Nat := 0x02

/-- Result flag `AR_STRING` of the host's `module.h`. -/
def AR_STRING : Nat := 0x04

/-- Result flag `AR_TEXT` of the host's `module.h`. -/
def AR_TEXT : Nat := 0x08

/-- Result flag `AR_MESSAGE` of the host's `module.h`. -/
def AR_MESSAGE : Nat := 0x20

/-- Largest value of `rand()`: `RAND_MAX` of the C library (glibc, `2^31 - 1`). -/
def RAND_MAX : Nat := 2147483647

/-- Largest C `int`. -/
def INT_MAX : Int := 2147483647

/-- Smallest C `int`. -/
def INT_MIN : Int := -2147483648

/-- Largest C `long` (LP64). -/
def LONG_MAX : Int := 9223372036854775807

/-- Smallest C `long` (LP64). -/
def LONG_MIN : Int := -9223372036854775808

/-- The request of the host's `module.h`: the item key and its parameters;
`nparam` is the number of parameters. -/
structure AGENT_REQUEST where
  key : String
  params : List String
deriving DecidableEq, Repr

/-- Field `request->nparam`. -/
def AGENT_REQUEST.nparam (request : AGENT_REQUEST) : Int :=
  (request.params.length : Int)

/-- Macro `get_rparam(request, num)`:
`(request)->nparam > num ? (request)->params[num] : NULL`. -/
def get_rparam (request : AGENT_REQUEST) (num : Nat) : Option String :=
  if request.nparam > (num : Int) then request.params.get? num else none

/-- The result of the host's `module.h`: the flag word `type` and one field per
result kind; a field holds a value once its `SET_*_RESULT` macro has run. -/
structure AGENT_RESULT where
  type : Nat
  ui64 : Option Nat
  dbl : Option ℚ
  str : Option String
  text : Option String
  msg : Option String
deriving DecidableEq

/-- The result as the host hands it to a handler (`init_result`): no flag set. -/
def init_result : AGENT_RESULT :=
  { type := 0, ui64 := none, dbl := none, str := none, text := none, msg := none }

/-- Conversion of a C `int` to `zbx_uint64_t`: reduction modulo `2 ^ 64`. -/
def to_uint64 (v : Int) : Nat :=
  (v % (2 : Int) ^ 64).toNat

/-- Macro `SET_UI64_RESULT(res, val)`:
`(res)->type |= AR_UINT64, (res)->ui64 = (zbx_uint64_t)(val)`. -/
def SET_UI64_RESULT (res : AGENT_RESULT) (val : Int) : AGENT_RESULT :=
  { res with type := res.type ||| AR_UINT64, ui64 := some (to_uint64 val) }

/-- Macro `SET_DBL_RESULT(res, val)`:
`(res)->type |= AR_DOUBLE, (res)->dbl = (double)(val)`. -/
def SET_DBL_RESULT (res : AGENT_RESULT) (val : ℚ) : AGENT_RESULT :=
  { res with type := res.type ||| AR_DOUBLE, dbl := some val }

/-- Macro `SET_STR_RESULT(res, val)`:
`(res)->type |= AR_STRING, (res)->str = (char *)(val)`. -/
def SET_STR_RESULT (res : AGENT_RESULT) (val : String) : AGENT_RESULT :=
  { res with type := res.type ||| AR_STRING, str := some val }

/-- Macro `SET_TEXT_RESULT(res, val)`:
`(res)->type |= AR_TEXT, (res)->text = (char *)(val)`. -/
def SET_TEXT_RESULT (res : AGENT_RESULT) (val : String) : AGENT_RESULT :=
  { res with type := res.type ||| AR_TEXT, text := some val }

/-- Macro `SET_MSG_RESULT(res, val)`:
`(res)->type |= AR_MESSAGE, (res)->msg = (char *)(val)`. -/
def SET_MSG_RESULT (res : AGENT_RESULT) (val : String) : AGENT_RESULT :=
  { res with type := res.type ||| AR_MESSAGE, msg := some val }

/-! ## C library: integers, `atoi`, `strdup`, `rand` -/

/-- Reduction of an integer to the 32-bit two's-complement range of C `int`. -/
def wrap32 (x : Int) : Int :=
  (x + 2147483648) % 4294967296 - 2147483648

/-- The NUL character that terminates a C string. -/
def NUL : Char := Char.ofNat 0

/-- Library `isspace` in the C locale: space, `\t`, `\n`, `\v`, `\f`, `\r`. -/
def isspace (c : Char) : Bool :=
  c.toNat = 32 || (9 ≤ c.toNat && c.toNat ≤ 13)

/-- Library `isdigit`. -/
def isdigit (c : Char) : Bool :=
  48 ≤ c.toNat && c.toNat ≤ 57

/-- The digit loop of `strtol` in base 10: the value of the leading run of
decimal digits, accumulated onto `acc`. -/
def strtol_digits : List Char → Nat → Nat
  | [], acc => acc
  | c :: cs, acc =>
    if isdigit c then strtol_digits cs (acc * 10 + (c.toNat - 48)) else acc

/-- The optional sign of `strtol`: whether the number is negative, and the rest. -/
def strtol_sign : List Char → Bool × List Char
  | c :: cs =>
    if c = Char.ofNat 45 then (true, cs)
    else if c = Char.ofNat 43 then (false, cs)
    else (false, c :: cs)
  | [] => (false, [])

/-- Library `strtol(nptr, NULL, 10)` on LP64: leading white space is skipped, an
optional sign is read, then the longest run of decimal digits; without a digit
the value is 0; a value outside `long` saturates at `LONG_MIN` or `LONG_MAX`. -/
def strtol (nptr : String) : Int :=
  let body := strtol_sign (nptr.data.dropWhile isspace)
  let n : Int := (strtol_digits body.2 0 : Int)
  let v : Int := if body.1 then -n else n
  if v < LONG_MIN then LONG_MIN else if LONG_MAX < v then LONG_MAX else v

/-- Library `atoi` as glibc implements it: `(int) strtol(nptr, NULL, 10)`, the
conversion to `int` keeping the low 32 bits. -/
def atoi (nptr : String) : Int :=
  wrap32 (strtol nptr)

/-- The C string stored in a character array: the characters before the first
NUL. -/
def c_str (buf : List Char) : String :=
  String.mk (buf.takeWhile (fun c => c != NUL))

/-- Library `strdup`: a copy of the C string its argument points to, which ends
at the first NUL. -/
def strdup (s : String) : String :=
  c_str s.data

/-- State of the generator behind `rand()`: the raw values of the coming draws. -/
abbrev RngState := Nat → Nat

/-- Every raw value of the stream is one `rand()` can return: in `[0, RAND_MAX]`. -/
def RngState.Valid (rng : RngState) : Prop :=
  ∀ n, rng n ≤ RAND_MAX

/-- Library `rand()`: the next raw value, and the generator advanced by one draw. -/
def rand (rng : RngState) : Int × RngState :=
  ((rng 0 : Int), fun n => rng (n + 1))

/-! ## C `double`

A `double` is the rational number it denotes. Every arithmetic operation is the
exact operation followed by `roundDouble`, the IEEE 754 binary64 rounding to
nearest, ties to even, with a 53-bit significand. The magnitudes that occur in
this module are 0 or lie between `2 ^ (-31)` and `2 ^ 31`, far inside the
normal range, so that overflow and gradual underflow are not modelled. -/

/-- Rounding of a rational to the nearest integer, a tie going to the even
neighbour. -/
def roundHalfEven (x : ℚ) : Int :=
  let f := ⌊x⌋
  let d := x - (f : ℚ)
  if d < 1 / 2 then f
  else if 1 / 2 < d then f + 1
  else if f % 2 = 0 then f else f + 1

/-- Rounding of a rational to the nearest `double`: with `2 ^ e ≤ |x| < 2 ^ (e + 1)`
the doubles around `x` are the multiples of `2 ^ (e - 52)`. -/
def roundDouble (x : ℚ) : ℚ :=
  if x = 0 then 0
  else
    let e := Int.log 2 |x|
    (roundHalfEven (x / (2 : ℚ) ^ (e - 52)) : ℚ) * (2 : ℚ) ^ (e - 52)

/-- Conversion of an integer (`int`, `size_t`) to `double`. -/
def int_to_double (i : Int) : ℚ :=
  roundDouble (i : ℚ)

/-- Conversion of a `double` to `size_t`: the fractional part is discarded. The
conversion is only defined for values above `-1`, the only ones it gets here. -/
def double_to_size_t (x : ℚ) : Nat :=
  ⌊x⌋.toNat

/-- The ways a handler can fail to return. -/
inductive Fault where
  | divByZero
  | nullDeref
  | outOfBounds
deriving DecidableEq, Repr

/-- What a handler leaves behind when it returns: its `int` status, the result
structure and the generator state. -/
structure Ret where
  code : Int
  result : AGENT_RESULT
  rng : RngState

/-- Outcome of a handler call. -/
abbrev Outcome := Except Fault Ret

/-! ## Handlers -/

/-- Handler of `stress.ping`. -/
def zbx_module_stress_ping (_request : AGENT_REQUEST) (result : AGENT_RESULT)
    (rng : RngState) : Outcome :=
  .ok ⟨SYSINFO_RET_OK, SET_UI64_RESULT result 1, rng⟩

/-- Handler of `stress.echo`. -/
def zbx_module_stress_echo (request : AGENT_REQUEST) (result : AGENT_RESULT)
    (rng : RngState) : Outcome :=
  if 1 ≠ request.nparam then
    .ok ⟨SYSINFO_RET_FAIL,
      SET_MSG_RESULT result (strdup "Invalid number of parameters."), rng⟩
  else
    match get_rparam request 0 with
    | none => .error Fault.nullDeref
    | some param => .ok ⟨SYSINFO_RET_OK, SET_STR_RESULT result (strdup param), rng⟩

/-- Handler of `stress.random`. The remainder `%` of C truncates toward zero
(`Int.tmod`) and faults on a zero divisor. -/
def zbx_module_stress_random (request : AGENT_REQUEST) (result : AGENT_RESULT)
    (rng : RngState) : Outcome :=
  if 2 ≠ request.nparam then
    .ok ⟨SYSINFO_RET_FAIL,
      SET_MSG_RESULT result (strdup "Invalid number of parameters."), rng⟩
  else
    match get_rparam request 0, get_rparam request 1 with
    | some param1, some param2 =>
      let from_ := atoi param1
      let to_ := atoi param2
      if from_ > to_ then
        .ok ⟨SYSINFO_RET_FAIL,
          SET_MSG_RESULT result (strdup "Invalid range specified."), rng⟩
      else
        let r := rand rng
        let width := wrap32 (wrap32 (to_ - from_) + 1)
        if width = 0 then .error Fault.divByZero
        else
          .ok ⟨SYSINFO_RET_OK,
            SET_UI64_RESULT result (wrap32 (from_ + Int.tmod r.1 width)), r.2⟩
    | _, _ => .error Fault.nullDeref

/-- Handler of `stress.file`. `stat_ret` is what `zbx_stat("/tmp/stress_file", &buf)`
returns: 0 when the call succeeds, -1 when it fails for whatever reason. -/
def zbx_module_stress_file (stat_ret : Int) (_request : AGENT_REQUEST)
    (result : AGENT_RESULT) (rng : RngState) : Outcome :=
  if 0 ≠ stat_ret then
    .ok ⟨SYSINFO_RET_OK, SET_UI64_RESULT result 0, rng⟩
  else
    .ok ⟨SYSINFO_RET_OK, SET_UI64_RESULT result 1, rng⟩

/-- Handler of `stress.random.int`. -/
def zbx_module_stress_random_int (_request : AGENT_REQUEST) (result : AGENT_RESULT)
    (rng : RngState) : Outcome :=
  let from_ : Int := 0
  let to_ : Int := 2000
  let r := rand rng
  let width := wrap32 (wrap32 (to_ - from_) + 1)
  if width = 0 then .error Fault.divByZero
  else
    .ok ⟨SYSINFO_RET_OK,
      SET_UI64_RESULT result (wrap32 (from_ + Int.tmod r.1 width)), r.2⟩

/-- Handler of `stress.random.double`: `from + rand() / (to - from + 1)` in
`double` arithmetic. -/
def zbx_module_stress_random_double (_request : AGENT_REQUEST) (result : AGENT_RESULT)
    (rng : RngState) : Outcome :=
  let from_ : ℚ := 1
  let to_ : ℚ := 2000
  let r := rand rng
  .ok ⟨SYSINFO_RET_OK,
    SET_DBL_RESULT result
      (roundDouble (from_ +
        roundDouble (int_to_double r.1 / roundDouble (roundDouble (to_ - from_) + 1)))),
    r.2⟩

/-- The array `charset` of `rand_str`: 62 characters and the terminating NUL that
the string literal brings, 63 bytes in all. -/
def charset : List Char :=
  "0123456789abcdefghijklmnopqrstuvwxyzABCDEFGHIJKLMNOPQRSTUVWXYZ".data ++ [NUL]

/-- The index of one round of `rand_str`, from the raw value of its draw:
`(double) rand() / RAND_MAX * (sizeof charset - 1)`, converted to `size_t`. -/
def rand_str_index (raw : Int) : Nat :=
  double_to_size_t
    (roundDouble
      (roundDouble (int_to_double raw / int_to_double (RAND_MAX : Int)) *
        int_to_double ((charset.length - 1 : Nat) : Int)))

/-- Function `rand_str(dest, length)`: the bytes it stores at `dest[0]`,
`dest[1]`, ... in this order, and the generator it leaves. A read outside
`charset` is a fault. -/
def rand_str : Nat → RngState → Except Fault (List Char × RngState)
  | 0, rng => .ok ([NUL], rng)
  | length + 1, rng =>
    let r := rand rng
    match charset.get? (rand_str_index r.1) with
    | none => .error Fault.outOfBounds
    | some c =>
      match rand_str length r.2 with
      | .error f => .error f
      | .ok (rest, rng1) => .ok (c :: rest, rng1)

/-- A local array `char str[size]` filled by `rand_str(str, size - 1)`: the
bytes of the array afterwards. A store outside the array is a fault. -/
def fill_buffer (size : Nat) (rng : RngState) : Except Fault (List Char × RngState) :=
  match rand_str (size - 1) rng with
  | .error f => .error f
  | .ok (written, rng1) =>
    if written.length ≤ size then .ok (written, rng1) else .error Fault.outOfBounds

/-- Handler of `stress.random.str`: `char str[250]`. -/
def zbx_module_stress_random_str (_request : AGENT_REQUEST) (result : AGENT_RESULT)
    (rng : RngState) : Outcome :=
  match fill_buffer 250 rng with
  | .error f => .error f
  | .ok (str, rng1) => .ok ⟨SYSINFO_RET_OK, SET_STR_RESULT result (strdup (String.mk str)), rng1⟩

/-- Handler of `stress.random.txt`: `char str[507]`. -/
def zbx_module_stress_random_txt (_request : AGENT_REQUEST) (result : AGENT_RESULT)
    (rng : RngState) : Outcome :=
  match fill_buffer 507 rng with
  | .error f => .error f
  | .ok (str, rng1) => .ok ⟨SYSINFO_RET_OK, SET_TEXT_RESULT result (strdup (String.mk str)), rng1⟩

/-! ## The item table -/

/-- Flag `CF_HAVEPARAMS` of the host's `module.h`: the item accepts parameters. -/
def CF_HAVEPARAMS : Nat := 0x01

/-- An entry of the item table (`ZBX_METRIC` of the host's `module.h`). The
handler is given the status of the `zbx_stat` call first, which only the
handler of `stress.file` makes. -/
structure ZBX_METRIC where
  key : String
  flags : Nat
  function : Int → AGENT_REQUEST → AGENT_RESULT → RngState → Outcome
  test_param : String

/-- The table `keys`, without the `{NULL}` entry that ends it. -/
def keys : List ZBX_METRIC :=
  [ ⟨"stress.ping", CF_HAVEPARAMS, fun _ => zbx_module_stress_ping, "anything"⟩,
    ⟨"stress.echo", CF_HAVEPARAMS, fun _ => zbx_module_stress_echo, "a message"⟩,
    ⟨"stress.file", CF_HAVEPARAMS, zbx_module_stress_file, "anything"⟩,
    ⟨"stress.random", CF_HAVEPARAMS, fun _ => zbx_module_stress_random, "1,1000"⟩,
    ⟨"stress.random.int", CF_HAVEPARAMS, fun _ => zbx_module_stress_random_int,
      "anything"⟩,
    ⟨"stress.random.double", CF_HAVEPARAMS, fun _ => zbx_module_stress_random_double,
      "anything"⟩,
    ⟨"stress.random.str", CF_HAVEPARAMS, fun _ => zbx_module_stress_random_str,
      "anything"⟩,
    ⟨"stress.random.txt", CF_HAVEPARAMS, fun _ => zbx_module_stress_random_txt,
      "anything"⟩ ]

/-- Function `zbx_module_item_list`: the table. -/
def zbx_module_item_list : List ZBX_METRIC :=
  keys

/-! ## Notions of the specification -/

/-- Value of a run of decimal digits read positionally. -/
def digits_value (ds : List Char) : Nat :=
  ds.foldl (fun acc c => acc * 10 + (c.toNat - 48)) 0

/-- The integer a decimal string denotes: an optional minus sign followed by one
or more decimal digits and nothing else; `none` for any other string. -/
def decimal_value (s : String) : Option Int :=
  match s.data with
  | [] => none
  | c :: cs =>
    if c = Char.ofNat 45 then
      if cs ≠ [] ∧ cs.all isdigit = true then some (-(digits_value cs : Int)) else none
    else
      if (c :: cs).all isdigit = true then some (digits_value (c :: cs) : Int) else none

/-- The first character of a list is a decimal digit. -/
def head_is_digit : List Char → Bool
  | [] => false
  | c :: _ => isdigit c

/-- The string starts, after optional white space and an optional sign, with a
decimal digit. -/
def starts_with_digit (s : String) : Bool :=
  match s.data.dropWhile isspace with
  | [] => false
  | c :: cs =>
    if c = Char.ofNat 45 ∨ c = Char.ofNat 43 then head_is_digit cs else isdigit c

/-- The generator after `k` draws. -/
def after_draws : Nat → RngState → RngState
  | 0, rng => rng
  | k + 1, rng => after_draws k (rand rng).2

/-- The result variants that hold a value, each named by its flag. -/
def populated (r : AGENT_RESULT) : List Nat :=
  (if r.ui64.isSome then [AR_UINT64] else []) ++
  (if r.dbl.isSome then [AR_DOUBLE] else []) ++
  (if r.str.isSome then [AR_STRING] else []) ++
  (if r.text.isSome then [AR_TEXT] else []) ++
  (if r.msg.isSome then [AR_MESSAGE] else [])

/-- The variant `kind` is the only one that holds a value, and the flag word
names it alone. -/
def only_variant (kind : Nat) (r : AGENT_RESULT) : Prop :=
  r.type = kind ∧ populated r = [kind]

/-! ## Machine integers -/

theorem wrap32_range (x : Int) : INT_MIN ≤ wrap32 x ∧ wrap32 x ≤ INT_MAX := by
  unfold wrap32 INT_MIN INT_MAX
  omega

theorem wrap32_of_range (x : Int) (hlo : INT_MIN ≤ x) (hhi : x ≤ INT_MAX) :
    wrap32 x = x := by
  unfold wrap32
  unfold INT_MIN at hlo
  unfold INT_MAX at hhi
  omega

theorem atoi_range (s : String) : INT_MIN ≤ atoi s ∧ atoi s ≤ INT_MAX :=
  wrap32_range (strtol s)

theorem to_uint64_of_nonneg (v : Int) (h0 : 0 ≤ v) (h1 : v ≤ INT_MAX) :
    (to_uint64 v : Int) = v := by
  unfold to_uint64
  unfold INT_MAX at h1
  have h2 : v % (2 : Int) ^ 64 = v := Int.emod_eq_of_lt h0 (by norm_num; omega)
  rw [h2]
  exact Int.toNat_of_nonneg h0

theorem tmod_eq_emod_pos (r w : Int) (hr : 0 ≤ r) (hw : 0 < w) :
    Int.tmod r w = r % w :=
  Int.tmod_eq_emod hr (le_of_lt hw)

theorem tmod_eq_emod_neg (r w : Int) (hr : 0 ≤ r) (hw : w < 0) :
    Int.tmod r w = r % (-w) := by
  have h : Int.tmod r (-(-w)) = Int.tmod r (-w) := Int.tmod_neg r (-w)
  rw [neg_neg] at h
  rw [h]
  exact Int.tmod_eq_emod hr (by omega)

theorem tmod_bounds (r w : Int) (hr : 0 ≤ r) (hw : w ≠ 0) :
    0 ≤ Int.tmod r w ∧ (0 < w → Int.tmod r w < w) ∧ (w < 0 → Int.tmod r w < -w)
      ∧ Int.tmod r w ≤ r := by
  rcases lt_or_gt_of_ne hw with hneg | hpos
  · rw [tmod_eq_emod_neg r w hr hneg]
    have h1 := Int.emod_nonneg r (show -w ≠ 0 by omega)
    have h2 := Int.emod_lt_of_pos r (show 0 < -w by omega)
    refine ⟨h1, (fun h => by omega), (fun _ => h2), ?_⟩
    by_cases hlt : r < -w
    · rw [Int.emod_eq_of_lt hr hlt]
    · omega
  · rw [tmod_eq_emod_pos r w hr hpos]
    have h1 := Int.emod_nonneg r hw
    have h2 := Int.emod_lt_of_pos r hpos
    refine ⟨h1, (fun _ => h2), (fun h => by omega), ?_⟩
    by_cases hlt : r < w
    · rw [Int.emod_eq_of_lt hr hlt]
    · omega

/-- The width `to - from + 1` of an accepted range, in 32-bit arithmetic, is 0
for the range from `INT_MIN` to `INT_MAX` and for no other. -/
theorem width_eq_zero_iff (a b : Int) (ha : INT_MIN ≤ a ∧ a ≤ INT_MAX)
    (hb : INT_MIN ≤ b ∧ b ≤ INT_MAX) (hle : a ≤ b) :
    wrap32 (wrap32 (b - a) + 1) = 0 ↔ a = INT_MIN ∧ b = INT_MAX := by
  unfold wrap32
  unfold INT_MIN INT_MAX at *
  omega

/-! ## Parameter counts -/

theorem strdup_invalid_number :
    strdup "Invalid number of parameters." = "Invalid number of parameters." := by
  decide

theorem strdup_invalid_range :
    strdup "Invalid range specified." = "Invalid range specified." := by
  decide

theorem nparam_two (k p1 p2 : String) : (AGENT_REQUEST.mk k [p1, p2]).nparam = 2 := rfl

theorem params_of_nparam_two (request : AGENT_REQUEST) (h : request.nparam = 2) :
    ∃ p1 p2, request.params = [p1, p2] := by
  unfold AGENT_REQUEST.nparam at h
  have hl : request.params.length = 2 := by exact_mod_cast h
  match hp : request.params, hl with
  | [p1, p2], _ => exact ⟨p1, p2, rfl⟩

/-- With two parameters the handler of `stress.random` is the range check on the
two `atoi` values followed by the draw. -/
theorem random_two_params (k p1 p2 : String) (res : AGENT_RESULT) (rng : RngState) :
    zbx_module_stress_random ⟨k, [p1, p2]⟩ res rng =
      if atoi p1 > atoi p2 then
        .ok ⟨SYSINFO_RET_FAIL, SET_MSG_RESULT res "Invalid range specified.", rng⟩
      else if wrap32 (wrap32 (atoi p2 - atoi p1) + 1) = 0 then .error Fault.divByZero
      else
        .ok ⟨SYSINFO_RET_OK,
          SET_UI64_RESULT res
            (wrap32 (atoi p1 + Int.tmod (rand rng).1 (wrap32 (wrap32 (atoi p2 - atoi p1) + 1)))),
          (rand rng).2⟩ := by
  simp [zbx_module_stress_random, get_rparam, nparam_two, strdup_invalid_range]

/-! ## The handler of `stress.random` -/

/-- C1, as amended: for parameter strings whose `atoi` values satisfy
`0 ≤ from ≤ to`, and for every raw value of the generator, the handler of
`stress.random` succeeds, consumes one draw, and stores an unsigned integer `v`
with `from ≤ v ≤ to`. -/
theorem random_in_range (k p1 p2 : String) (res : AGENT_RESULT) (rng : RngState)
    (h0 : 0 ≤ atoi p1) (hle : atoi p1 ≤ atoi p2) :
    ∃ v : Nat,
      zbx_module_stress_random ⟨k, [p1, p2]⟩ res rng =
        .ok ⟨SYSINFO_RET_OK,
          { res with type := res.type ||| AR_UINT64, ui64 := some v }, (rand rng).2⟩
      ∧ atoi p1 ≤ (v : Int) ∧ (v : Int) ≤ atoi p2 := by
  rw [random_two_params]
  have hr : (0 : Int) ≤ (rand rng).1 := by simp [rand]
  have h2 : atoi p2 ≤ 2147483647 := (atoi_range p2).2
  generalize atoi p1 = a at *
  generalize atoi p2 = b at *
  generalize (rand rng).1 = r at *
  rw [if_neg (by omega)]
  have hw1 : wrap32 (b - a) = b - a :=
    wrap32_of_range _ (by unfold INT_MIN; omega) (by unfold INT_MAX; omega)
  rw [hw1]
  by_cases hfull : b - a + 1 ≤ 2147483647
  · have hw2 : wrap32 (b - a + 1) = b - a + 1 :=
      wrap32_of_range _ (by unfold INT_MIN; omega) (by unfold INT_MAX; omega)
    rw [hw2, if_neg (by omega)]
    obtain ⟨t0, t1, -, -⟩ := tmod_bounds r (b - a + 1) hr (by omega)
    have t1 := t1 (by omega)
    have hs : wrap32 (a + Int.tmod r (b - a + 1)) = a + Int.tmod r (b - a + 1) :=
      wrap32_of_range _ (by unfold INT_MIN; omega) (by unfold INT_MAX; omega)
    have hv := to_uint64_of_nonneg (a + Int.tmod r (b - a + 1)) (by omega)
      (by unfold INT_MAX; omega)
    refine ⟨to_uint64 (wrap32 (a + Int.tmod r (b - a + 1))), rfl, ?_, ?_⟩
    · rw [hs, hv]; omega
    · rw [hs, hv]; omega
  · have hfull2 : b - a + 1 = 2147483648 := by omega
    have hw2 : wrap32 (b - a + 1) = -2147483648 := by rw [hfull2]; decide
    rw [hw2, if_neg (by omega)]
    obtain ⟨t0, -, t1, -⟩ := tmod_bounds r (-2147483648) hr (by omega)
    have t1 := t1 (by omega)
    have hs : wrap32 (a + Int.tmod r (-2147483648)) = a + Int.tmod r (-2147483648) :=
      wrap32_of_range _ (by unfold INT_MIN; omega) (by unfold INT_MAX; omega)
    have hv := to_uint64_of_nonneg (a + Int.tmod r (-2147483648)) (by omega)
      (by unfold INT_MAX; omega)
    refine ⟨to_uint64 (wrap32 (a + Int.tmod r (-2147483648))), rfl, ?_, ?_⟩
    · rw [hs, hv]; omega
    · rw [hs, hv]; omega

/-- Witness of `random_in_range`: the test parameters `1,1000` of the item
table. -/
theorem random_in_range_witness :
    ∃ v : Nat,
      zbx_module_stress_random ⟨"stress.random", ["1", "1000"]⟩ init_result
          (fun _ => 2147483647) =
        .ok ⟨SYSINFO_RET_OK,
          { init_result with type := init_result.type ||| AR_UINT64, ui64 := some v },
          (rand (fun _ => 2147483647)).2⟩
      ∧ atoi "1" ≤ (v : Int) ∧ (v : Int) ≤ atoi "1000" :=
  random_in_range "stress.random" "1" "1000" init_result (fun _ => 2147483647)
    (by decide) (by decide)

/-- C1, counterexample: the parameters `-5,-3` satisfy `from ≤ to`, the call
succeeds, and the unsigned integer stored is `2 ^ 64 - 4`, above `to`. -/
theorem random_in_range_counterexample :
    atoi "-5" ≤ atoi "-3" ∧
    (zbx_module_stress_random ⟨"stress.random", ["-5", "-3"]⟩ init_result
        (fun _ => 7)).toOption.map (fun r => (r.code, r.result.ui64))
      = some (SYSINFO_RET_OK, some 18446744073709551612) ∧
    ¬ ((18446744073709551612 : Int) ≤ atoi "-3") := by
  decide

/-! ## `atoi` on decimal strings -/

theorem strtol_digits_eq_foldl (ds : List Char) (acc : Nat)
    (h : ds.all isdigit = true) :
    strtol_digits ds acc = ds.foldl (fun acc c => acc * 10 + (c.toNat - 48)) acc := by
  induction ds generalizing acc with
  | nil => rfl
  | cons c cs ih =>
    simp only [List.all_cons, Bool.and_eq_true] at h
    simp only [strtol_digits, h.1, if_true, List.foldl_cons]
    exact ih _ h.2

theorem isspace_of_isdigit (c : Char) (h : isdigit c = true) : isspace c = false := by
  unfold isdigit at h
  unfold isspace
  simp only [Bool.and_eq_true, decide_eq_true_eq] at h
  simp only [Bool.or_eq_false_iff, decide_eq_false_iff_not, Bool.and_eq_false_imp,
    decide_eq_true_eq]
  omega

theorem strtol_of_decimal (s : String) (v : Int) (h : decimal_value s = some v) :
    strtol s =
      if v < LONG_MIN then LONG_MIN else if LONG_MAX < v then LONG_MAX else v := by
  unfold decimal_value at h
  unfold strtol
  match hs : s.data, h with
  | c :: cs, h =>
    simp only at h
    by_cases hc : c = Char.ofNat 45
    · subst hc
      simp only [if_true] at h
      split at h
      · rename_i hd
        injection h with h
        subst h
        have hsp : isspace (Char.ofNat 45) = false := by decide
        simp [List.dropWhile, hsp, strtol_sign, strtol_digits_eq_foldl cs 0 hd.2,
          digits_value]
      · cases h
    · simp only [hc, if_false] at h
      split at h
      · rename_i hd
        injection h with h
        subst h
        have hd1 : isdigit c = true := by
          simp only [List.all_cons, Bool.and_eq_true] at hd
          exact hd.1
        have hsp := isspace_of_isdigit c hd1
        have h43 : c ≠ Char.ofNat 43 := by
          intro h43
          rw [h43] at hd1
          exact absurd hd1 (by decide)
        simp [List.dropWhile, hsp, strtol_sign, hc, h43,
          strtol_digits_eq_foldl (c :: cs) 0 hd, digits_value]
      · cases h

/-- On a decimal string that denotes an integer of the `int` range, `atoi`
returns that integer. -/
theorem atoi_of_decimal (s : String) (v : Int) (h : decimal_value s = some v)
    (hlo : INT_MIN ≤ v) (hhi : v ≤ INT_MAX) : atoi s = v := by
  unfold atoi
  rw [strtol_of_decimal s v h]
  have h1 : ¬ v < LONG_MIN := by unfold LONG_MIN; unfold INT_MIN at hlo; omega
  have h2 : ¬ LONG_MAX < v := by unfold LONG_MAX; unfold INT_MAX at hhi; omega
  rw [if_neg h1, if_neg h2]
  exact wrap32_of_range v hlo hhi

/-- C4, as amended: for every pair of decimal parameter strings denoting
integers `from > to` that both lie in the 32-bit `int` range, the handler of
`stress.random` returns `SYSINFO_RET_FAIL` with the message
"Invalid range specified." and leaves the generator untouched. -/
theorem random_invalid_range (k p1 p2 : String) (a b : Int) (res : AGENT_RESULT)
    (rng : RngState) (h1 : decimal_value p1 = some a) (h2 : decimal_value p2 = some b)
    (ha : INT_MIN ≤ a ∧ a ≤ INT_MAX) (hb : INT_MIN ≤ b ∧ b ≤ INT_MAX) (hgt : a > b) :
    zbx_module_stress_random ⟨k, [p1, p2]⟩ res rng =
      .ok ⟨SYSINFO_RET_FAIL, SET_MSG_RESULT res "Invalid range specified.", rng⟩ := by
  rw [random_two_params, atoi_of_decimal p1 a h1 ha.1 ha.2,
    atoi_of_decimal p2 b h2 hb.1 hb.2, if_pos hgt]

/-- Witness of `random_invalid_range`: the parameters `1000,1`. -/
theorem random_invalid_range_witness :
    zbx_module_stress_random ⟨"stress.random", ["1000", "1"]⟩ init_result (fun _ => 7) =
      .ok ⟨SYSINFO_RET_FAIL, SET_MSG_RESULT init_result "Invalid range specified.",
        fun _ => 7⟩ :=
  random_invalid_range "stress.random" "1000" "1" 1000 1 init_result (fun _ => 7)
    (by decide) (by decide) (by decide) (by decide) (by decide)

/-- C4, counterexample: the decimal strings `9223372036854775808` and
`9223372036854775807` denote integers `from > to`, yet `atoi` maps both to `-1`
and the handler returns `SYSINFO_RET_OK` with an unsigned integer and no
message. -/
theorem random_invalid_range_counterexample :
    decimal_value "9223372036854775808" = some 9223372036854775808 ∧
    decimal_value "9223372036854775807" = some 9223372036854775807 ∧
    (zbx_module_stress_random
        ⟨"stress.random", ["9223372036854775808", "9223372036854775807"]⟩ init_result
        (fun _ => 7)).toOption.map (fun r => (r.code, r.result.ui64, r.result.msg))
      = some (SYSINFO_RET_OK, some 18446744073709551615, none) := by
  decide

/-- C5, failing input: with the parameters `-2147483648,2147483647` the range is
accepted (`from ≤ to`), the width `to - from + 1` computed in 32-bit `int`
arithmetic is 0, and the remainder by it makes the handler fault instead of
returning. -/
theorem random_width_zero_at_full_range :
    atoi "-2147483648" ≤ atoi "2147483647" ∧
    wrap32 (wrap32 (atoi "2147483647" - atoi "-2147483648") + 1) = 0 ∧
    zbx_module_stress_random ⟨"stress.random", ["-2147483648", "2147483647"]⟩
        init_result (fun _ => 7) = .error Fault.divByZero := by
  refine ⟨by decide, by decide, ?_⟩
  rw [random_two_params]
  rfl

/-- C6: a request whose parameter count is not 2 makes the handler of
`stress.random` return `SYSINFO_RET_FAIL` with the message
"Invalid number of parameters."; with exactly 2 parameters a failing return
carries the message "Invalid range specified." instead, and a successful return
leaves the message field as it was. -/
theorem random_param_count (request : AGENT_REQUEST) (res : AGENT_RESULT)
    (rng : RngState) :
    (request.nparam ≠ 2 →
      zbx_module_stress_random request res rng =
        .ok ⟨SYSINFO_RET_FAIL,
          SET_MSG_RESULT res "Invalid number of parameters.", rng⟩) ∧
    (request.nparam = 2 → ∀ r, zbx_module_stress_random request res rng = .ok r →
      (r.code = SYSINFO_RET_FAIL →
        r.result.msg = some "Invalid range specified." ∧
        r.result.msg ≠ some "Invalid number of parameters.") ∧
      (r.code ≠ SYSINFO_RET_FAIL → r.result.msg = res.msg)) := by
  constructor
  · intro h
    have h2 : (2 : Int) ≠ request.nparam := fun e => h e.symm
    simp [zbx_module_stress_random, h2, strdup_invalid_number]
  · intro h r hr
    obtain ⟨p1, p2, hp⟩ := params_of_nparam_two request h
    have hreq : request = ⟨request.key, [p1, p2]⟩ := by
      cases request
      simp only at hp
      rw [hp]
    rw [hreq, random_two_params] at hr
    split at hr
    · injection hr with hr
      subst hr
      simp [SET_MSG_RESULT]
    · split at hr
      · cases hr
      · injection hr with hr
        subst hr
        simp [SET_UI64_RESULT, SYSINFO_RET_OK, SYSINFO_RET_FAIL]

/-- Witness of `random_param_count`: a request without parameters fails with
the message, and the request `1,1000` returns without it. -/
theorem random_param_count_witness :
    zbx_module_stress_random ⟨"stress.random", []⟩ init_result (fun _ => 7) =
        .ok ⟨SYSINFO_RET_FAIL,
          SET_MSG_RESULT init_result "Invalid number of parameters.", fun _ => 7⟩ ∧
    ∀ r, zbx_module_stress_random ⟨"stress.random", ["1", "1000"]⟩ init_result
        (fun _ => 7) = .ok r →
      (r.code = SYSINFO_RET_FAIL →
        r.result.msg = some "Invalid range specified." ∧
        r.result.msg ≠ some "Invalid number of parameters.") ∧
      (r.code ≠ SYSINFO_RET_FAIL → r.result.msg = init_result.msg) :=
  ⟨(random_param_count ⟨"stress.random", []⟩ init_result (fun _ => 7)).1 (by decide),
   (random_param_count ⟨"stress.random", ["1", "1000"]⟩ init_result (fun _ => 7)).2
     (by decide)⟩

/-! ## Non-numeric parameters -/

theorem strtol_digits_of_no_digit (cs : List Char) (h : head_is_digit cs = false) :
    strtol_digits cs 0 = 0 := by
  cases cs with
  | nil => rfl
  | cons c cs =>
    simp only [head_is_digit] at h
    simp [strtol_digits, h]

theorem atoi_of_no_digit (s : String) (h : starts_with_digit s = false) :
    atoi s = 0 := by
  unfold starts_with_digit at h
  unfold atoi strtol
  split at h
  · rename_i hd
    rw [hd]
    decide
  · rename_i c cs hd
    rw [hd]
    split at h
    · rename_i hsign
      have hz := strtol_digits_of_no_digit cs h
      rcases hsign with h45 | h43
      · subst h45
        simp [strtol_sign, hz, LONG_MIN, LONG_MAX, wrap32]
      · subst h43
        have hne : Char.ofNat 43 ≠ Char.ofNat 45 := by decide
        simp [strtol_sign, hne, hz, LONG_MIN, LONG_MAX, wrap32]
    · rename_i hsign
      simp only [not_or] at hsign
      have hz : strtol_digits (c :: cs) 0 = 0 := by simp [strtol_digits, h]
      simp [strtol_sign, hsign.1, hsign.2, hz, LONG_MIN, LONG_MAX, wrap32]

/-- C7: a parameter string that does not start, after optional white space and
sign, with a decimal digit is treated as the integer 0: the outcome of the
handler of `stress.random` is the one of the same call with `"0"` in its place,
in the first position and in the second. -/
theorem random_non_numeric (k s t : String) (res : AGENT_RESULT) (rng : RngState)
    (h : starts_with_digit s = false) :
    zbx_module_stress_random ⟨k, [s, t]⟩ res rng =
      zbx_module_stress_random ⟨k, ["0", t]⟩ res rng ∧
    zbx_module_stress_random ⟨k, [t, s]⟩ res rng =
      zbx_module_stress_random ⟨k, [t, "0"]⟩ res rng := by
  have h0 : atoi "0" = 0 := by decide
  simp only [random_two_params, atoi_of_no_digit s h, h0, and_self]

/-- Witness of `random_non_numeric`: `random("x", "5")` is `random("0", "5")`. -/
theorem random_non_numeric_witness :
    zbx_module_stress_random ⟨"stress.random", ["x", "5"]⟩ init_result (fun _ => 7) =
      zbx_module_stress_random ⟨"stress.random", ["0", "5"]⟩ init_result (fun _ => 7) ∧
    zbx_module_stress_random ⟨"stress.random", ["5", "x"]⟩ init_result (fun _ => 7) =
      zbx_module_stress_random ⟨"stress.random", ["5", "0"]⟩ init_result (fun _ => 7) :=
  random_non_numeric "stress.random" "x" "5" init_result (fun _ => 7) (by decide)

/-! ## The handler of `stress.echo` -/

theorem strdup_of_no_nul (s : String) (h : NUL ∉ s.data) : strdup s = s := by
  unfold strdup c_str
  have ht : s.data.takeWhile (fun c => c != NUL) = s.data := by
    rw [List.takeWhile_eq_self_iff]
    intro c hc
    simp only [bne_iff_ne, ne_eq]
    intro hcn
    exact h (hcn ▸ hc)
  rw [ht]

/-- C8: called with the single parameter `s`, any C string (a character
sequence without NUL), the handler of `stress.echo` returns `SYSINFO_RET_OK`
with the short-text result `s` itself, character for character, and leaves the
generator untouched. -/
theorem echo_identity (k s : String) (res : AGENT_RESULT) (rng : RngState)
    (h : NUL ∉ s.data) :
    zbx_module_stress_echo ⟨k, [s]⟩ res rng =
      .ok ⟨SYSINFO_RET_OK, { res with type := res.type ||| AR_STRING, str := some s },
        rng⟩ := by
  simp [zbx_module_stress_echo, AGENT_REQUEST.nparam, get_rparam, strdup_of_no_nul s h,
    SET_STR_RESULT]

/-- Witness of `echo_identity`: `echo(" hello\ ")` keeps its blanks and its
backslash. -/
theorem echo_identity_witness :
    zbx_module_stress_echo ⟨"stress.echo", [" hello\\ "]⟩ init_result (fun _ => 7) =
      .ok ⟨SYSINFO_RET_OK,
        { init_result with type := init_result.type ||| AR_STRING,
                           str := some " hello\\ " }, fun _ => 7⟩ :=
  echo_identity "stress.echo" " hello\\ " init_result (fun _ => 7) (by decide)

/-- C9: the handler of `stress.echo` returns `SYSINFO_RET_FAIL` with the message
"Invalid number of parameters." exactly when the parameter count of the request
is different from 1: it does so whenever the count is not 1, and any failing
return implies a count different from 1. -/
theorem echo_invalid_count (request : AGENT_REQUEST) (res : AGENT_RESULT)
    (rng : RngState) :
    (request.nparam ≠ 1 →
      zbx_module_stress_echo request res rng =
        .ok ⟨SYSINFO_RET_FAIL,
          SET_MSG_RESULT res "Invalid number of parameters.", rng⟩) ∧
    ((∃ r, zbx_module_stress_echo request res rng = .ok r ∧ r.code = SYSINFO_RET_FAIL) →
      request.nparam ≠ 1) := by
  constructor
  · intro h
    have h2 : (1 : Int) ≠ request.nparam := fun e => h e.symm
    simp [zbx_module_stress_echo, h2, strdup_invalid_number]
  · rintro ⟨r, h, hcode⟩ hn
    unfold AGENT_REQUEST.nparam at hn
    have hl : request.params.length = 1 := by exact_mod_cast hn
    match hp : request.params, hl with
    | [p], _ =>
      have hreq : request = ⟨request.key, [p]⟩ := by
        cases request
        simp only at hp
        rw [hp]
      rw [hreq] at h
      simp only [zbx_module_stress_echo, AGENT_REQUEST.nparam, get_rparam,
        List.length_singleton, Nat.cast_one, ne_eq, not_true_eq_false, if_false] at h
      simp only [Nat.cast_zero, gt_iff_lt, zero_lt_one, if_true, List.get?_cons_zero] at h
      injection h with h
      subst h
      exact absurd hcode (show (SYSINFO_RET_OK : Int) ≠ SYSINFO_RET_FAIL by decide)

/-- Witness of `echo_invalid_count`: a request with two parameters fails with
the message, and the failing return of a request without parameters comes with
a count different from 1. -/
theorem echo_invalid_count_witness :
    zbx_module_stress_echo ⟨"stress.echo", ["a", "b"]⟩ init_result (fun _ => 7) =
        .ok ⟨SYSINFO_RET_FAIL,
          SET_MSG_RESULT init_result "Invalid number of parameters.", fun _ => 7⟩ ∧
    (AGENT_REQUEST.mk "stress.echo" []).nparam ≠ 1 :=
  ⟨(echo_invalid_count ⟨"stress.echo", ["a", "b"]⟩ init_result (fun _ => 7)).1
     (by decide),
   (echo_invalid_count ⟨"stress.echo", []⟩ init_result (fun _ => 7)).2
     ⟨_, (echo_invalid_count ⟨"stress.echo", []⟩ init_result (fun _ => 7)).1 (by decide),
       rfl⟩⟩

/-! ## Rounding to `double` -/

theorem roundHalfEven_intCast (m : Int) : roundHalfEven (m : ℚ) = m := by
  simp [roundHalfEven]

theorem roundHalfEven_cases (x : ℚ) :
    roundHalfEven x = ⌊x⌋ ∨ roundHalfEven x = ⌊x⌋ + 1 := by
  unfold roundHalfEven
  simp only
  split_ifs <;> simp

theorem roundHalfEven_mono {x y : ℚ} (h : x ≤ y) : roundHalfEven x ≤ roundHalfEven y := by
  have hf : ⌊x⌋ ≤ ⌊y⌋ := Int.floor_mono h
  rcases lt_or_eq_of_le hf with hlt | heq
  · have h1 : roundHalfEven x ≤ ⌊x⌋ + 1 := by
      rcases roundHalfEven_cases x with h | h <;> omega
    have h2 : ⌊y⌋ ≤ roundHalfEven y := by
      rcases roundHalfEven_cases y with h | h <;> omega
    omega
  · unfold roundHalfEven
    simp only
    rw [← heq]
    have hd : x - (⌊x⌋ : ℚ) ≤ y - (⌊x⌋ : ℚ) := by linarith
    split_ifs <;> first | omega | (exfalso; linarith)

theorem abs_roundHalfEven_sub_le (x : ℚ) : |(roundHalfEven x : ℚ) - x| ≤ 1 / 2 := by
  have h1 : (⌊x⌋ : ℚ) ≤ x := Int.floor_le x
  have h2 : x < (⌊x⌋ : ℚ) + 1 := Int.lt_floor_add_one x
  unfold roundHalfEven
  simp only
  rw [abs_le]
  split_ifs <;> push_cast <;> constructor <;> linarith

theorem two_zpow_pos (k : Int) : (0 : ℚ) < (2 : ℚ) ^ k :=
  zpow_pos (by norm_num) k

theorem two_zpow_log_le (x : ℚ) (hx : 0 < x) : (2 : ℚ) ^ Int.log 2 x ≤ x := by
  have h := Int.zpow_log_le_self (b := 2) (by norm_num) hx
  simpa using h

theorem lt_two_zpow_log_succ (x : ℚ) : x < (2 : ℚ) ^ (Int.log 2 x + 1) := by
  have h := Int.lt_zpow_succ_log_self (b := 2) (by norm_num) x
  simpa using h

theorem log_eq_of_bounds (x : ℚ) (e : Int) (hlo : (2 : ℚ) ^ e ≤ x)
    (hhi : x < (2 : ℚ) ^ (e + 1)) : Int.log 2 x = e := by
  have hx : 0 < x := lt_of_lt_of_le (two_zpow_pos e) hlo
  have h1 : e ≤ Int.log 2 x := by
    have := (Int.zpow_le_iff_le_log (b := 2) (by norm_num) (x := e) hx).1 (by simpa using hlo)
    exact this
  have h2 : Int.log 2 x < e + 1 := by
    have := (Int.lt_zpow_iff_log_lt (b := 2) (by norm_num) (x := e + 1) hx).1
      (by simpa using hhi)
    exact this
  omega

/-- The scaled significand lies in `[2 ^ 52, 2 ^ 53)`. -/
theorem scaled_bounds (x : ℚ) (hx : 0 < x) :
    (2 : ℚ) ^ (52 : ℕ) ≤ x / (2 : ℚ) ^ (Int.log 2 x - 52) ∧
    x / (2 : ℚ) ^ (Int.log 2 x - 52) < (2 : ℚ) ^ (53 : ℕ) := by
  have hp := two_zpow_pos (Int.log 2 x - 52)
  have h1 := two_zpow_log_le x hx
  have h2 := lt_two_zpow_log_succ x
  have e1 : (2 : ℚ) ^ (52 : ℕ) * (2 : ℚ) ^ (Int.log 2 x - 52) = (2 : ℚ) ^ Int.log 2 x := by
    rw [← zpow_natCast, ← zpow_add₀ (by norm_num)]
    congr 1
    push_cast
    ring
  have e2 : (2 : ℚ) ^ (53 : ℕ) * (2 : ℚ) ^ (Int.log 2 x - 52) =
      (2 : ℚ) ^ (Int.log 2 x + 1) := by
    rw [← zpow_natCast, ← zpow_add₀ (by norm_num)]
    congr 1
    push_cast
    ring
  constructor
  · rw [le_div_iff₀ hp, e1]
    exact h1
  · rw [div_lt_iff₀ hp, e2]
    exact h2

theorem roundDouble_of_pos (x : ℚ) (hx : 0 < x) :
    roundDouble x =
      (roundHalfEven (x / (2 : ℚ) ^ (Int.log 2 x - 52)) : ℚ) *
        (2 : ℚ) ^ (Int.log 2 x - 52) := by
  unfold roundDouble
  rw [if_neg (ne_of_gt hx), abs_of_pos hx]

/-- A positive number and its rounding lie in the same closed binade. -/
theorem roundDouble_binade (x : ℚ) (hx : 0 < x) :
    (2 : ℚ) ^ Int.log 2 x ≤ roundDouble x ∧
    roundDouble x ≤ (2 : ℚ) ^ (Int.log 2 x + 1) := by
  have hp := two_zpow_pos (Int.log 2 x - 52)
  obtain ⟨s1, s2⟩ := scaled_bounds x hx
  have r1 : ((2 : Int) ^ (52 : ℕ)) ≤ roundHalfEven (x / (2 : ℚ) ^ (Int.log 2 x - 52)) := by
    have := roundHalfEven_mono s1
    have c : ((2 : ℚ) ^ (52 : ℕ)) = (((2 : Int) ^ (52 : ℕ) : Int) : ℚ) := by norm_num
    rw [c, roundHalfEven_intCast] at this
    exact this
  have r2 : roundHalfEven (x / (2 : ℚ) ^ (Int.log 2 x - 52)) ≤ ((2 : Int) ^ (53 : ℕ)) := by
    have := roundHalfEven_mono (le_of_lt s2)
    have c : ((2 : ℚ) ^ (53 : ℕ)) = (((2 : Int) ^ (53 : ℕ) : Int) : ℚ) := by norm_num
    rw [c, roundHalfEven_intCast] at this
    exact this
  have e1 : (2 : ℚ) ^ (52 : ℕ) * (2 : ℚ) ^ (Int.log 2 x - 52) = (2 : ℚ) ^ Int.log 2 x := by
    rw [← zpow_natCast, ← zpow_add₀ (by norm_num)]
    congr 1
    push_cast
    ring
  have e2 : (2 : ℚ) ^ (53 : ℕ) * (2 : ℚ) ^ (Int.log 2 x - 52) =
      (2 : ℚ) ^ (Int.log 2 x + 1) := by
    rw [← zpow_natCast, ← zpow_add₀ (by norm_num)]
    congr 1
    push_cast
    ring
  rw [roundDouble_of_pos x hx]
  constructor
  · rw [← e1]
    apply mul_le_mul_of_nonneg_right _ (le_of_lt hp)
    have : (((2 : Int) ^ (52 : ℕ) : Int) : ℚ) ≤
        (roundHalfEven (x / (2 : ℚ) ^ (Int.log 2 x - 52)) : ℚ) := by exact_mod_cast r1
    simpa using this
  · rw [← e2]
    apply mul_le_mul_of_nonneg_right _ (le_of_lt hp)
    have : (roundHalfEven (x / (2 : ℚ) ^ (Int.log 2 x - 52)) : ℚ) ≤
        (((2 : Int) ^ (53 : ℕ) : Int) : ℚ) := by exact_mod_cast r2
    simpa using this

theorem roundDouble_mono_pos {x y : ℚ} (hx : 0 < x) (h : x ≤ y) :
    roundDouble x ≤ roundDouble y := by
  have hy : 0 < y := lt_of_lt_of_le hx h
  have hl : Int.log 2 x ≤ Int.log 2 y := Int.log_mono_right hx h
  rcases lt_or_eq_of_le hl with hlt | heq
  · have b1 := (roundDouble_binade x hx).2
    have b2 := (roundDouble_binade y hy).1
    have b3 : (2 : ℚ) ^ (Int.log 2 x + 1) ≤ (2 : ℚ) ^ Int.log 2 y :=
      zpow_le_zpow_right₀ (by norm_num) (by omega)
    linarith
  · rw [roundDouble_of_pos x hx, roundDouble_of_pos y hy, heq]
    have hp := two_zpow_pos (Int.log 2 y - 52)
    apply mul_le_mul_of_nonneg_right _ (le_of_lt hp)
    have : x / (2 : ℚ) ^ (Int.log 2 y - 52) ≤ y / (2 : ℚ) ^ (Int.log 2 y - 52) :=
      div_le_div_of_nonneg_right h (le_of_lt hp)
    exact_mod_cast roundHalfEven_mono this

theorem roundDouble_zero : roundDouble 0 = 0 := by
  simp [roundDouble]

theorem roundDouble_nonneg {x : ℚ} (hx : 0 ≤ x) : 0 ≤ roundDouble x := by
  rcases lt_or_eq_of_le hx with hpos | hz
  · exact le_trans (le_of_lt (two_zpow_pos _)) (roundDouble_binade x hpos).1
  · rw [← hz, roundDouble_zero]

theorem roundDouble_mono {x y : ℚ} (hx : 0 ≤ x) (h : x ≤ y) :
    roundDouble x ≤ roundDouble y := by
  rcases lt_or_eq_of_le hx with hpos | hz
  · exact roundDouble_mono_pos hpos h
  · rw [← hz, roundDouble_zero]
    exact roundDouble_nonneg (le_trans hx h)

theorem roundHalfEven_eq_of (z : ℚ) (n : Int) (h : |z - (n : ℚ)| < 1 / 2) :
    roundHalfEven z = n := by
  have h1 := abs_roundHalfEven_sub_le z
  rw [abs_le] at h1
  rw [abs_lt] at h
  have h2 : ((roundHalfEven z : Int) : ℚ) < ((n + 1 : Int) : ℚ) := by push_cast; linarith
  have h3 : ((n - 1 : Int) : ℚ) < ((roundHalfEven z : Int) : ℚ) := by push_cast; linarith
  have h4 : roundHalfEven z < n + 1 := by exact_mod_cast h2
  have h5 : n - 1 < roundHalfEven z := by exact_mod_cast h3
  omega

/-- Evaluation of `roundDouble` at a positive number from its binade and the
integer nearest to its scaled significand. -/
theorem roundDouble_eq_of (x : ℚ) (e n : Int) (hlo : (2 : ℚ) ^ e ≤ x)
    (hhi : x < (2 : ℚ) ^ (e + 1)) (hn : |x / (2 : ℚ) ^ (e - 52) - (n : ℚ)| < 1 / 2) :
    roundDouble x = (n : ℚ) * (2 : ℚ) ^ (e - 52) := by
  have hx : 0 < x := lt_of_lt_of_le (two_zpow_pos e) hlo
  rw [roundDouble_of_pos x hx, log_eq_of_bounds x e hlo hhi, roundHalfEven_eq_of _ n hn]

/-- A natural number below `2 ^ 53` is a `double`. -/
theorem roundDouble_natCast (m : Nat) (h : m < 2 ^ 53) : roundDouble (m : ℚ) = (m : ℚ) := by
  rcases Nat.eq_zero_or_pos m with hz | hpos
  · subst hz
    simp [roundDouble]
  · have hx : (0 : ℚ) < (m : ℚ) := by exact_mod_cast hpos
    have hlo := two_zpow_log_le (m : ℚ) hx
    have hm : (m : ℚ) < (2 : ℚ) ^ (53 : Int) := by
      have h1 : ((m : ℕ) : ℚ) < ((2 ^ 53 : ℕ) : ℚ) := by exact_mod_cast h
      have h2 : (((2 : ℕ) ^ 53 : ℕ) : ℚ) = (2 : ℚ) ^ (53 : Int) := by norm_num
      rw [h2] at h1
      exact h1
    have he : Int.log 2 (m : ℚ) < 53 := by
      have hlt : (2 : ℚ) ^ Int.log 2 (m : ℚ) < (2 : ℚ) ^ (53 : Int) := lt_of_le_of_lt hlo hm
      exact (zpow_lt_zpow_iff_right₀ (by norm_num)).1 hlt
    obtain ⟨k, hk⟩ : ∃ k : Nat, (k : Int) = 52 - Int.log 2 (m : ℚ) :=
      ⟨(52 - Int.log 2 (m : ℚ)).toNat, Int.toNat_of_nonneg (by omega)⟩
    have hs : (m : ℚ) / (2 : ℚ) ^ (Int.log 2 (m : ℚ) - 52) =
        (((m : Int) * (2 : Int) ^ k : Int) : ℚ) := by
      have e1 : Int.log 2 (m : ℚ) - 52 = -(k : Int) := by omega
      rw [e1, zpow_neg, div_inv_eq_mul, zpow_natCast]
      push_cast
      ring
    rw [roundDouble_of_pos _ hx, hs, roundHalfEven_intCast]
    have e1 : Int.log 2 (m : ℚ) - 52 = -(k : Int) := by omega
    rw [e1, zpow_neg, zpow_natCast]
    push_cast
    have hp : ((2 : ℚ) ^ k) ≠ 0 := pow_ne_zero k (by norm_num)
    field_simp

/-- Rounding a positive number moves it by at most the fraction `2 ^ (-53)` of
itself. -/
theorem abs_roundDouble_sub_le (x : ℚ) (hx : 0 < x) :
    |roundDouble x - x| ≤ x / (2 : ℚ) ^ (53 : ℕ) := by
  have hp := two_zpow_pos (Int.log 2 x - 52)
  have hlo := two_zpow_log_le x hx
  have h1 := abs_roundHalfEven_sub_le (x / (2 : ℚ) ^ (Int.log 2 x - 52))
  have e1 : roundDouble x - x =
      ((roundHalfEven (x / (2 : ℚ) ^ (Int.log 2 x - 52)) : ℚ) -
        x / (2 : ℚ) ^ (Int.log 2 x - 52)) * (2 : ℚ) ^ (Int.log 2 x - 52) := by
    rw [roundDouble_of_pos x hx, sub_mul, div_mul_cancel₀ _ (ne_of_gt hp)]
  have e2 : (2 : ℚ) ^ (Int.log 2 x - 52) = (2 : ℚ) ^ Int.log 2 x / (2 : ℚ) ^ (52 : ℕ) := by
    rw [zpow_sub₀ (by norm_num)]
    norm_num
  rw [e1, abs_mul, abs_of_pos hp]
  calc |(roundHalfEven (x / (2 : ℚ) ^ (Int.log 2 x - 52)) : ℚ) -
          x / (2 : ℚ) ^ (Int.log 2 x - 52)| * (2 : ℚ) ^ (Int.log 2 x - 52)
      ≤ 1 / 2 * (2 : ℚ) ^ (Int.log 2 x - 52) :=
        mul_le_mul_of_nonneg_right h1 (le_of_lt hp)
    _ = (2 : ℚ) ^ Int.log 2 x / (2 : ℚ) ^ (53 : ℕ) := by rw [e2]; norm_num; ring
    _ ≤ x / (2 : ℚ) ^ (53 : ℕ) := div_le_div_of_nonneg_right hlo (by positivity)

/-! ## The handler of `stress.random.int` -/

theorem random_int_eq (request : AGENT_REQUEST) (res : AGENT_RESULT) (rng : RngState) :
    zbx_module_stress_random_int request res rng =
      .ok ⟨SYSINFO_RET_OK,
        { res with type := res.type ||| AR_UINT64, ui64 := some (rng 0 % 2001) },
        (rand rng).2⟩ := by
  have hw : wrap32 (wrap32 (2000 - 0) + 1) = 2001 := by decide
  have hr : (0 : Int) ≤ (rng 0 : Int) := Int.natCast_nonneg _
  have ht : Int.tmod (rng 0 : Int) 2001 = ((rng 0 % 2001 : Nat) : Int) := by
    rw [tmod_eq_emod_pos _ _ hr (by decide)]
    norm_cast
  have hlt : rng 0 % 2001 < 2001 := Nat.mod_lt _ (by decide)
  have hwr : wrap32 (0 + ((rng 0 % 2001 : Nat) : Int)) = ((rng 0 % 2001 : Nat) : Int) := by
    rw [zero_add]
    exact wrap32_of_range _ (by unfold INT_MIN; omega) (by unfold INT_MAX; omega)
  have hu : to_uint64 ((rng 0 % 2001 : Nat) : Int) = rng 0 % 2001 := by
    have := to_uint64_of_nonneg ((rng 0 % 2001 : Nat) : Int) (Int.natCast_nonneg _)
      (by unfold INT_MAX; omega)
    exact_mod_cast this
  simp only [zbx_module_stress_random_int, hw, rand, ht, hwr, hu, SET_UI64_RESULT]
  rfl

/-- C11: for every raw value `raw` of the draw, the handler of
`stress.random.int` returns `SYSINFO_RET_OK` with the unsigned integer
`raw mod 2001`, which lies in `[0, 2000]`; and every `v` in `[0, 2000]` is the
result for some raw value in `[0, RAND_MAX]`. -/
theorem random_int_value (request : AGENT_REQUEST) (res : AGENT_RESULT) (rng : RngState) :
    zbx_module_stress_random_int request res rng =
        .ok ⟨SYSINFO_RET_OK,
          { res with type := res.type ||| AR_UINT64, ui64 := some (rng 0 % 2001) },
          (rand rng).2⟩ ∧
    rng 0 % 2001 ≤ 2000 ∧
    ∀ v : Nat, v ≤ 2000 → ∃ raw : Nat, raw ≤ RAND_MAX ∧
      zbx_module_stress_random_int request res (fun _ => raw) =
        .ok ⟨SYSINFO_RET_OK,
          { res with type := res.type ||| AR_UINT64, ui64 := some v }, fun _ => raw⟩ := by
  refine ⟨random_int_eq request res rng, ?_, ?_⟩
  · have := Nat.mod_lt (rng 0) (show 0 < 2001 by decide)
    omega
  · intro v hv
    refine ⟨v, by unfold RAND_MAX; omega, ?_⟩
    rw [random_int_eq]
    have hm : v % 2001 = v := Nat.mod_eq_of_lt (by omega)
    simp only [hm]
    rfl

/-- Witness of `random_int_value`: the value 2000 is attained. -/
theorem random_int_value_witness :
    ∃ raw : Nat, raw ≤ RAND_MAX ∧
      zbx_module_stress_random_int ⟨"stress.random.int", []⟩ init_result (fun _ => raw) =
        .ok ⟨SYSINFO_RET_OK,
          { init_result with type := init_result.type ||| AR_UINT64, ui64 := some 2000 },
          fun _ => raw⟩ :=
  (random_int_value ⟨"stress.random.int", []⟩ init_result (fun _ => 7)).2.2 2000
    (by decide)

/-! ## Equal bounds -/

/-- C12, as amended: when both parameters have the same `atoi` value `n`, the
handler of `stress.random` succeeds for every raw value and stores `n` reduced
modulo `2 ^ 64`: `n` itself when `n ≥ 0`, and `n + 2 ^ 64` when `n < 0`. -/
theorem random_equal_bounds (k p1 p2 : String) (res : AGENT_RESULT) (rng : RngState)
    (h : atoi p1 = atoi p2) :
    zbx_module_stress_random ⟨k, [p1, p2]⟩ res rng =
        .ok ⟨SYSINFO_RET_OK,
          { res with type := res.type ||| AR_UINT64,
                     ui64 := some (to_uint64 (atoi p1)) }, (rand rng).2⟩ ∧
    (0 ≤ atoi p1 → (to_uint64 (atoi p1) : Int) = atoi p1) ∧
    (atoi p1 < 0 → (to_uint64 (atoi p1) : Int) = atoi p1 + 2 ^ 64) := by
  obtain ⟨hlo, hhi⟩ := atoi_range p1
  refine ⟨?_, fun h0 => to_uint64_of_nonneg _ h0 hhi, ?_⟩
  · rw [random_two_params, ← h]
    have hw : wrap32 (wrap32 (atoi p1 - atoi p1) + 1) = 1 := by
      rw [sub_self]
      decide
    have ht : Int.tmod (rand rng).1 1 = 0 := Int.tmod_one _
    rw [if_neg (lt_irrefl _), hw, if_neg (by decide), ht, add_zero,
      wrap32_of_range _ hlo hhi]
    rfl
  · intro hneg
    unfold to_uint64
    unfold INT_MIN at hlo
    have h1 : (0 : Int) ≤ atoi p1 % 2 ^ 64 := Int.emod_nonneg _ (by norm_num)
    rw [Int.toNat_of_nonneg h1]
    have h2 : atoi p1 % 2 ^ 64 = (atoi p1 + 2 ^ 64) % 2 ^ 64 := by
      rw [Int.add_emod_self]
    rw [h2]
    exact Int.emod_eq_of_lt (by norm_num; omega) (by norm_num; omega)

/-- Witness of `random_equal_bounds`: `random("7", "7")`. -/
theorem random_equal_bounds_witness :
    zbx_module_stress_random ⟨"stress.random", ["7", "7"]⟩ init_result (fun _ => 12345) =
        .ok ⟨SYSINFO_RET_OK,
          { init_result with type := init_result.type ||| AR_UINT64,
                             ui64 := some (to_uint64 (atoi "7")) },
          (rand (fun _ => 12345)).2⟩ ∧
    (0 ≤ atoi "7" → (to_uint64 (atoi "7") : Int) = atoi "7") ∧
    (atoi "7" < 0 → (to_uint64 (atoi "7") : Int) = atoi "7" + 2 ^ 64) :=
  random_equal_bounds "stress.random" "7" "7" init_result (fun _ => 12345) (by decide)

/-- C12, counterexample: with both parameters `-1` the call succeeds and the
unsigned integer stored is `2 ^ 64 - 1`, not `-1`. -/
theorem random_equal_bounds_counterexample :
    atoi "-1" = -1 ∧
    (zbx_module_stress_random ⟨"stress.random", ["-1", "-1"]⟩ init_result
        (fun _ => 7)).toOption.map (fun r => (r.code, r.result.ui64))
      = some (SYSINFO_RET_OK, some 18446744073709551615) ∧
    ((18446744073709551615 : Nat) : Int) ≠ -1 := by
  decide

/-! ## The item table, `stress.ping` and `stress.file` -/

/-- C13: the item list has exactly 8 entries and their keys are pairwise
distinct. -/
theorem item_list_keys :
    zbx_module_item_list.length = 8 ∧
    (zbx_module_item_list.map (fun m => m.key)).Nodup := by
  refine ⟨rfl, ?_⟩
  decide

/-- C15: for every request, whatever the number and content of its parameters,
the handler of `stress.ping` returns `SYSINFO_RET_OK` with the unsigned integer
1, and leaves the generator untouched. -/
theorem ping_returns_one (request : AGENT_REQUEST) (res : AGENT_RESULT) (rng : RngState) :
    zbx_module_stress_ping request res rng =
      .ok ⟨SYSINFO_RET_OK, { res with type := res.type ||| AR_UINT64, ui64 := some 1 },
        rng⟩ := by
  rfl

theorem file_eq (stat_ret : Int) (request : AGENT_REQUEST) (res : AGENT_RESULT)
    (rng : RngState) :
    zbx_module_stress_file stat_ret request res rng =
      .ok ⟨SYSINFO_RET_OK,
        { res with type := res.type ||| AR_UINT64,
                   ui64 := some (if stat_ret = 0 then 1 else 0) }, rng⟩ := by
  unfold zbx_module_stress_file
  by_cases h : stat_ret = 0
  · subst h
    rfl
  · have h2 : (0 : Int) ≠ stat_ret := fun e => h e.symm
    rw [if_pos h2, if_neg h]
    rfl

/-- C16: for every request and every status of the `zbx_stat` call on the
sentinel path, the handler of `stress.file` returns `SYSINFO_RET_OK`, with the
unsigned integer 1 when the call succeeded (status 0) and 0 when it failed,
whatever the reason of the failure. -/
theorem file_never_fails (stat_ret : Int) (request : AGENT_REQUEST) (res : AGENT_RESULT)
    (rng : RngState) :
    zbx_module_stress_file stat_ret request res rng =
      .ok ⟨SYSINFO_RET_OK,
        { res with type := res.type ||| AR_UINT64,
                   ui64 := some (if stat_ret = 0 then 1 else 0) }, rng⟩ :=
  file_eq stat_ret request res rng

/-! ## The function `rand_str` -/

theorem charset_length : charset.length = 63 := by
  decide

theorem charset_last : charset.get? 62 = some NUL := by
  decide

theorem int_to_double_natCast (n : Nat) (h : n < 2 ^ 53) :
    int_to_double (n : Int) = (n : ℚ) := by
  unfold int_to_double
  rw [Int.cast_natCast]
  exact roundDouble_natCast n h

/-- The index of a round as a function of the raw value, the conversions to
`double` being exact. -/
theorem rand_str_index_eq (raw : Nat) (h : raw ≤ RAND_MAX) :
    rand_str_index (raw : Int) =
      ⌊roundDouble (roundDouble ((raw : ℚ) / 2147483647) * 62)⌋.toNat := by
  unfold RAND_MAX at h
  have h1 : int_to_double (raw : Int) = (raw : ℚ) :=
    int_to_double_natCast raw (by norm_num; omega)
  have h2 : int_to_double (RAND_MAX : Int) = 2147483647 := by
    rw [int_to_double_natCast RAND_MAX (by decide)]
    norm_num [RAND_MAX]
  have h3 : int_to_double ((charset.length - 1 : Nat) : Int) = 62 := by
    rw [int_to_double_natCast _ (by decide), charset_length]
    norm_num
  unfold rand_str_index double_to_size_t
  rw [h1, h2, h3]

/-- Every index `rand_str` computes from a raw value in `[0, RAND_MAX]` is at
most 62, the position of the terminating NUL of `charset`. -/
theorem rand_str_index_le (raw : Nat) (h : raw ≤ RAND_MAX) :
    rand_str_index (raw : Int) ≤ 62 := by
  rw [rand_str_index_eq raw h]
  unfold RAND_MAX at h
  have hq0 : (0 : ℚ) ≤ (raw : ℚ) / 2147483647 := by positivity
  have hq1 : (raw : ℚ) / 2147483647 ≤ ((1 : Nat) : ℚ) := by
    rw [div_le_iff₀ (by norm_num)]
    have : (raw : ℚ) ≤ ((2147483647 : Nat) : ℚ) := by exact_mod_cast h
    simpa using this
  have hr0 : 0 ≤ roundDouble ((raw : ℚ) / 2147483647) := roundDouble_nonneg hq0
  have hr1 : roundDouble ((raw : ℚ) / 2147483647) ≤ ((1 : Nat) : ℚ) := by
    have := roundDouble_mono hq0 hq1
    rwa [roundDouble_natCast 1 (by decide)] at this
  have hp : roundDouble (roundDouble ((raw : ℚ) / 2147483647) * 62) ≤ ((62 : Nat) : ℚ) := by
    have hle : roundDouble ((raw : ℚ) / 2147483647) * 62 ≤ ((62 : Nat) : ℚ) := by
      push_cast at hr1 ⊢
      linarith
    have := roundDouble_mono (mul_nonneg hr0 (by norm_num)) hle
    rwa [roundDouble_natCast 62 (by decide)] at this
  have hf : ⌊roundDouble (roundDouble ((raw : ℚ) / 2147483647) * 62)⌋ ≤ 62 := by
    have := Int.floor_mono hp
    rwa [Int.floor_natCast] at this
  omega

/-- The raw value `RAND_MAX` gives the index 62. -/
theorem rand_str_index_max : rand_str_index (RAND_MAX : Int) = 62 := by
  rw [rand_str_index_eq RAND_MAX (le_refl _)]
  have h1 : ((RAND_MAX : Nat) : ℚ) / 2147483647 = ((1 : Nat) : ℚ) := by
    norm_num [RAND_MAX]
  rw [h1, roundDouble_natCast 1 (by decide)]
  have h2 : ((1 : Nat) : ℚ) * 62 = ((62 : Nat) : ℚ) := by norm_num
  rw [h2, roundDouble_natCast 62 (by decide), Int.floor_natCast]
  rfl

theorem valid_const (c : Nat) (h : c ≤ RAND_MAX) : RngState.Valid (fun _ => c) :=
  fun _ => h

theorem valid_tail (rng : RngState) (h : rng.Valid) : RngState.Valid (rand rng).2 :=
  fun n => h (n + 1)

/-- On a generator whose raw values lie in `[0, RAND_MAX]`, `rand_str` returns:
it stores `n + 1` bytes, the byte of round `i` being `charset[index]` for the
index of draw `i`, the last byte being NUL, and it consumes `n` draws. -/
theorem rand_str_spec (n : Nat) (rng : RngState) (h : rng.Valid) :
    ∃ bytes : List Char,
      rand_str n rng = .ok (bytes, fun k => rng (k + n)) ∧
      bytes.length = n + 1 ∧
      bytes.get? n = some NUL ∧
      ∀ i, i < n → bytes.get? i = charset.get? (rand_str_index (rng i : Int)) := by
  induction n generalizing rng with
  | zero =>
    exact ⟨[NUL], rfl, rfl, rfl, fun i hi => absurd hi (Nat.not_lt_zero i)⟩
  | succ n ih =>
    obtain ⟨rest, hrest, hlen, hlast, hget⟩ := ih (rand rng).2 (valid_tail rng h)
    have hidx : rand_str_index (rng 0 : Int) < charset.length := by
      have := rand_str_index_le (rng 0) (h 0)
      rw [charset_length]
      omega
    obtain ⟨c, hc⟩ : ∃ c, charset.get? (rand_str_index (rng 0 : Int)) = some c :=
      ⟨charset.get ⟨_, hidx⟩, List.get?_eq_get hidx⟩
    refine ⟨c :: rest, ?_, ?_, ?_, ?_⟩
    · have hc1 : charset.get? (rand_str_index (rand rng).1) = some c := hc
      simp only [rand_str, hc1, hrest]
      rfl
    · simp [hlen]
    · simpa using hlast
    · intro i hi
      cases i with
      | zero => simpa using hc.symm
      | succ j =>
        have := hget j (by omega)
        simpa [rand] using this

theorem fill_buffer_spec (size : Nat) (hs : 0 < size) (rng : RngState) (h : rng.Valid) :
    ∃ bytes : List Char,
      fill_buffer size rng = .ok (bytes, fun k => rng (k + (size - 1))) ∧
      bytes.length = size ∧
      bytes.get? (size - 1) = some NUL ∧
      ∀ i, i < size - 1 → bytes.get? i = charset.get? (rand_str_index (rng i : Int)) := by
  obtain ⟨bytes, hb, hlen, hlast, hget⟩ := rand_str_spec (size - 1) rng h
  have hl : bytes.length = size := by omega
  refine ⟨bytes, ?_, hl, hlast, hget⟩
  unfold fill_buffer
  rw [hb]
  simp only
  rw [if_pos (le_of_eq hl)]

/-- The C string of an array whose first byte is NUL is empty. -/
theorem c_str_of_head_nul (bytes : List Char) (h : bytes.get? 0 = some NUL) :
    strdup (String.mk bytes) = "" := by
  cases bytes with
  | nil => simp at h
  | cons c cs =>
    simp only [List.get?_cons_zero, Option.some.injEq] at h
    subst h
    rfl

theorem random_str_spec (request : AGENT_REQUEST) (res : AGENT_RESULT) (rng : RngState)
    (h : rng.Valid) :
    ∃ bytes : List Char,
      zbx_module_stress_random_str request res rng =
        .ok ⟨SYSINFO_RET_OK, SET_STR_RESULT res (strdup (String.mk bytes)),
          fun k => rng (k + 249)⟩ ∧
      bytes.length = 250 ∧
      bytes.get? 249 = some NUL ∧
      ∀ i, i < 249 → bytes.get? i = charset.get? (rand_str_index (rng i : Int)) := by
  obtain ⟨bytes, hb, hrest⟩ := fill_buffer_spec 250 (by decide) rng h
  refine ⟨bytes, ?_, hrest⟩
  unfold zbx_module_stress_random_str
  rw [hb]

theorem random_txt_spec (request : AGENT_REQUEST) (res : AGENT_RESULT) (rng : RngState)
    (h : rng.Valid) :
    ∃ bytes : List Char,
      zbx_module_stress_random_txt request res rng =
        .ok ⟨SYSINFO_RET_OK, SET_TEXT_RESULT res (strdup (String.mk bytes)),
          fun k => rng (k + 506)⟩ ∧
      bytes.length = 507 ∧
      bytes.get? 506 = some NUL ∧
      ∀ i, i < 506 → bytes.get? i = charset.get? (rand_str_index (rng i : Int)) := by
  obtain ⟨bytes, hb, hrest⟩ := fill_buffer_spec 507 (by decide) rng h
  refine ⟨bytes, ?_, hrest⟩
  unfold zbx_module_stress_random_txt
  rw [hb]

/-- A generator whose first raw value is `RAND_MAX` makes `stress.random.str`
return the empty string. -/
theorem random_str_of_first_max (request : AGENT_REQUEST) (res : AGENT_RESULT)
    (rng : RngState) (h : rng.Valid) (h0 : rng 0 = RAND_MAX) :
    zbx_module_stress_random_str request res rng =
      .ok ⟨SYSINFO_RET_OK, SET_STR_RESULT res "", fun k => rng (k + 249)⟩ := by
  obtain ⟨bytes, hb, -, -, hget⟩ := random_str_spec request res rng h
  have h1 : bytes.get? 0 = some NUL := by
    rw [hget 0 (by decide), h0, rand_str_index_max, charset_last]
  rw [hb, c_str_of_head_nul bytes h1]

/-- A generator whose first raw value is `RAND_MAX` makes `stress.random.txt`
return the empty string. -/
theorem random_txt_of_first_max (request : AGENT_REQUEST) (res : AGENT_RESULT)
    (rng : RngState) (h : rng.Valid) (h0 : rng 0 = RAND_MAX) :
    zbx_module_stress_random_txt request res rng =
      .ok ⟨SYSINFO_RET_OK, SET_TEXT_RESULT res "", fun k => rng (k + 506)⟩ := by
  obtain ⟨bytes, hb, -, -, hget⟩ := random_txt_spec request res rng h
  have h1 : bytes.get? 0 = some NUL := by
    rw [hget 0 (by decide), h0, rand_str_index_max, charset_last]
  rw [hb, c_str_of_head_nul bytes h1]

theorem valid_first_max : RngState.Valid (fun n => if n = 0 then 2147483647 else 0) := by
  intro n
  by_cases hn : n = 0
  · simp [hn, RAND_MAX]
  · simp [hn]

/-- C2, failing input: on the generator whose first raw value is `RAND_MAX`
(and whose other raw values are 0), every raw value being in `[0, RAND_MAX]`,
the handler of `stress.random.str` returns `SYSINFO_RET_OK` with the empty
string, whose length is not 249. -/
theorem random_str_truncated :
    RngState.Valid (fun n => if n = 0 then 2147483647 else 0) ∧
    zbx_module_stress_random_str ⟨"stress.random.str", ["anything"]⟩ init_result
        (fun n => if n = 0 then 2147483647 else 0) =
      .ok ⟨SYSINFO_RET_OK, SET_STR_RESULT init_result "",
        fun k => if k + 249 = 0 then 2147483647 else 0⟩ ∧
    String.length "" ≠ 249 :=
  ⟨valid_first_max,
   random_str_of_first_max _ _ _ valid_first_max rfl,
   by decide⟩

/-- C3, failing input: on the generator whose first raw value is `RAND_MAX`
(and whose other raw values are 0), every raw value being in `[0, RAND_MAX]`,
the handler of `stress.random.txt` returns `SYSINFO_RET_OK` with the empty
text, whose length is not 506. -/
theorem random_txt_truncated :
    RngState.Valid (fun n => if n = 0 then 2147483647 else 0) ∧
    zbx_module_stress_random_txt ⟨"stress.random.txt", ["anything"]⟩ init_result
        (fun n => if n = 0 then 2147483647 else 0) =
      .ok ⟨SYSINFO_RET_OK, SET_TEXT_RESULT init_result "",
        fun k => if k + 506 = 0 then 2147483647 else 0⟩ ∧
    String.length "" ≠ 506 :=
  ⟨valid_first_max,
   random_txt_of_first_max _ _ _ valid_first_max rfl,
   by decide⟩

/-- C19: for every length `n` and every generator whose raw values lie in
`[0, RAND_MAX]`, `rand_str` returns after storing exactly `n + 1` bytes, the
last one NUL, and every index it computes is inside the 63-byte array
`charset`; the handlers of `stress.random.str` and `stress.random.txt` fill
their 250- and 507-byte arrays without a store outside them, and return. -/
theorem rand_str_in_bounds (n : Nat) (request : AGENT_REQUEST) (res : AGENT_RESULT)
    (rng : RngState) (h : rng.Valid) :
    (∃ bytes : List Char,
      rand_str n rng = .ok (bytes, fun k => rng (k + n)) ∧
      bytes.length = n + 1 ∧ bytes.get? n = some NUL) ∧
    (∀ i, i < n → rand_str_index (rng i : Int) < charset.length) ∧
    charset.length = 63 ∧
    (∃ bytes rng1, fill_buffer 250 rng = .ok (bytes, rng1) ∧
      bytes.length = 249 + 1 ∧ bytes.length ≤ 250) ∧
    (∃ bytes rng1, fill_buffer 507 rng = .ok (bytes, rng1) ∧
      bytes.length = 506 + 1 ∧ bytes.length ≤ 507) ∧
    (∃ r, zbx_module_stress_random_str request res rng = .ok r) ∧
    (∃ r, zbx_module_stress_random_txt request res rng = .ok r) := by
  obtain ⟨bytes, hb, hlen, hlast, -⟩ := rand_str_spec n rng h
  obtain ⟨b1, hb1, hl1, -, -⟩ := fill_buffer_spec 250 (by decide) rng h
  obtain ⟨b2, hb2, hl2, -, -⟩ := fill_buffer_spec 507 (by decide) rng h
  obtain ⟨s1, hs1, -⟩ := random_str_spec request res rng h
  obtain ⟨s2, hs2, -⟩ := random_txt_spec request res rng h
  refine ⟨⟨bytes, hb, hlen, hlast⟩, ?_, charset_length, ⟨b1, _, hb1, hl1, le_of_eq hl1⟩,
    ⟨b2, _, hb2, hl2, le_of_eq hl2⟩, ⟨_, hs1⟩, ⟨_, hs2⟩⟩
  intro i _
  have := rand_str_index_le (rng i) (h i)
  rw [charset_length]
  omega

/-- Witness of `rand_str_in_bounds`: the generator whose raw values are all
`RAND_MAX`, and the length 3. -/
theorem rand_str_in_bounds_witness :
    RngState.Valid (fun _ => 2147483647) ∧
    ((∃ bytes : List Char,
      rand_str 3 (fun _ => 2147483647) = .ok (bytes, fun k => (fun _ => 2147483647) (k + 3)) ∧
      bytes.length = 3 + 1 ∧ bytes.get? 3 = some NUL) ∧
    (∀ i, i < 3 → rand_str_index (((fun _ => 2147483647) i : Nat) : Int) < charset.length) ∧
    charset.length = 63 ∧
    (∃ bytes rng1, fill_buffer 250 (fun _ => 2147483647) = .ok (bytes, rng1) ∧
      bytes.length = 249 + 1 ∧ bytes.length ≤ 250) ∧
    (∃ bytes rng1, fill_buffer 507 (fun _ => 2147483647) = .ok (bytes, rng1) ∧
      bytes.length = 506 + 1 ∧ bytes.length ≤ 507) ∧
    (∃ r, zbx_module_stress_random_str ⟨"stress.random.str", []⟩ init_result
      (fun _ => 2147483647) = .ok r) ∧
    (∃ r, zbx_module_stress_random_txt ⟨"stress.random.txt", []⟩ init_result
      (fun _ => 2147483647) = .ok r)) :=
  ⟨valid_const 2147483647 (by decide),
   rand_str_in_bounds 3 ⟨"stress.random.str", []⟩ init_result (fun _ => 2147483647)
     (valid_const 2147483647 (by decide))⟩

/-! ## Error paths and draws -/

theorem request_of_params (request : AGENT_REQUEST) (p1 p2 : String)
    (hp : request.params = [p1, p2]) : request = ⟨request.key, [p1, p2]⟩ := by
  cases request
  simp only at hp
  rw [hp]

theorem request_of_nparam_one (request : AGENT_REQUEST) (h : request.nparam = 1) :
    ∃ p, request = ⟨request.key, [p]⟩ := by
  unfold AGENT_REQUEST.nparam at h
  have hl : request.params.length = 1 := by exact_mod_cast h
  match hp : request.params, hl with
  | [p], _ =>
    refine ⟨p, ?_⟩
    cases request
    simp only at hp
    rw [hp]

theorem request_of_nparam_two (request : AGENT_REQUEST) (h : request.nparam = 2) :
    ∃ p1 p2, request = ⟨request.key, [p1, p2]⟩ := by
  obtain ⟨p1, p2, hp⟩ := params_of_nparam_two request h
  refine ⟨p1, p2, ?_⟩
  cases request
  simp only at hp
  rw [hp]

theorem echo_wrong_count (request : AGENT_REQUEST) (res : AGENT_RESULT) (rng : RngState)
    (h : request.nparam ≠ 1) :
    zbx_module_stress_echo request res rng =
      .ok ⟨SYSINFO_RET_FAIL, SET_MSG_RESULT res "Invalid number of parameters.", rng⟩ := by
  have h2 : (1 : Int) ≠ request.nparam := fun e => h e.symm
  simp [zbx_module_stress_echo, h2, strdup_invalid_number]

theorem echo_one_param (k p : String) (res : AGENT_RESULT) (rng : RngState) :
    zbx_module_stress_echo ⟨k, [p]⟩ res rng =
      .ok ⟨SYSINFO_RET_OK, SET_STR_RESULT res (strdup p), rng⟩ := by
  simp [zbx_module_stress_echo, AGENT_REQUEST.nparam, get_rparam]

theorem random_wrong_count (request : AGENT_REQUEST) (res : AGENT_RESULT) (rng : RngState)
    (h : request.nparam ≠ 2) :
    zbx_module_stress_random request res rng =
      .ok ⟨SYSINFO_RET_FAIL, SET_MSG_RESULT res "Invalid number of parameters.", rng⟩ := by
  have h2 : (2 : Int) ≠ request.nparam := fun e => h e.symm
  simp [zbx_module_stress_random, h2, strdup_invalid_number]

theorem ok_ne_fail : SYSINFO_RET_OK ≠ SYSINFO_RET_FAIL := by
  decide

/-- A return of the handler of `stress.echo` with `SYSINFO_RET_FAIL` carries the
generator it was given. -/
theorem echo_fail_rng (request : AGENT_REQUEST) (res : AGENT_RESULT) (rng : RngState)
    (r : Ret) (h : zbx_module_stress_echo request res rng = .ok r)
    (_hc : r.code = SYSINFO_RET_FAIL) : r.rng = rng := by
  by_cases hn : request.nparam = 1
  · obtain ⟨p, hp⟩ := request_of_nparam_one request hn
    rw [hp, echo_one_param] at h
    injection h with h
    subst h
    rfl
  · rw [echo_wrong_count request res rng hn] at h
    injection h with h
    subst h
    rfl

/-- A return of the handler of `stress.random` carries the generator it was
given when the status is `SYSINFO_RET_FAIL`, and the generator after one draw
when the status is `SYSINFO_RET_OK`. -/
theorem random_ret_rng (request : AGENT_REQUEST) (res : AGENT_RESULT) (rng : RngState)
    (r : Ret) (h : zbx_module_stress_random request res rng = .ok r) :
    (r.code = SYSINFO_RET_FAIL → r.rng = rng) ∧
    (r.code = SYSINFO_RET_OK → r.rng = (rand rng).2) := by
  by_cases hn : request.nparam = 2
  · obtain ⟨p1, p2, hp⟩ := request_of_nparam_two request hn
    rw [hp, random_two_params] at h
    split at h
    · injection h with h
      subst h
      exact ⟨fun _ => rfl, fun hc => absurd hc.symm ok_ne_fail⟩
    · split at h
      · cases h
      · injection h with h
        subst h
        exact ⟨fun hc => absurd hc ok_ne_fail, fun _ => rfl⟩
  · rw [random_wrong_count request res rng hn] at h
    injection h with h
    subst h
    exact ⟨fun _ => rfl, fun hc => absurd hc.symm ok_ne_fail⟩

/-- C14: the error returns of the handlers leave the generator as it was. A
request to `stress.echo` with a parameter count other than 1, and a request to
`stress.random` with a parameter count other than 2 or with `from > to`, return
`SYSINFO_RET_FAIL` together with the generator they were given; and whenever one
of the two handlers returns `SYSINFO_RET_FAIL`, it returns that generator. -/
theorem error_paths_keep_rng (request : AGENT_REQUEST) (res : AGENT_RESULT)
    (rng : RngState) :
    (request.nparam ≠ 1 →
      ∃ r, zbx_module_stress_echo request res rng = .ok r ∧
        r.code = SYSINFO_RET_FAIL ∧ r.rng = rng) ∧
    (request.nparam ≠ 2 →
      ∃ r, zbx_module_stress_random request res rng = .ok r ∧
        r.code = SYSINFO_RET_FAIL ∧ r.rng = rng) ∧
    (∀ p1 p2, request.params = [p1, p2] → atoi p1 > atoi p2 →
      ∃ r, zbx_module_stress_random request res rng = .ok r ∧
        r.code = SYSINFO_RET_FAIL ∧ r.rng = rng) ∧
    (∀ r, zbx_module_stress_echo request res rng = .ok r →
      r.code = SYSINFO_RET_FAIL → r.rng = rng) ∧
    (∀ r, zbx_module_stress_random request res rng = .ok r →
      r.code = SYSINFO_RET_FAIL → r.rng = rng) := by
  refine ⟨fun h => ⟨_, echo_wrong_count request res rng h, rfl, rfl⟩,
    fun h => ⟨_, random_wrong_count request res rng h, rfl, rfl⟩, ?_,
    fun r h hc => echo_fail_rng request res rng r h hc,
    fun r h hc => (random_ret_rng request res rng r h).1 hc⟩
  intro p1 p2 hp hgt
  have hreq : request = ⟨request.key, [p1, p2]⟩ := by
    cases request
    simp only at hp
    rw [hp]
  rw [hreq, random_two_params, if_pos hgt]
  exact ⟨_, rfl, rfl, rfl⟩

/-- Witness of `error_paths_keep_rng`: `echo()` without parameter, `random()`
without parameter and `random("1000", "1")`. -/
theorem error_paths_keep_rng_witness :
    (∃ r, zbx_module_stress_echo ⟨"stress.echo", []⟩ init_result (fun _ => 7) = .ok r ∧
        r.code = SYSINFO_RET_FAIL ∧ r.rng = fun _ => 7) ∧
    (∃ r, zbx_module_stress_random ⟨"stress.random", []⟩ init_result (fun _ => 7) = .ok r ∧
        r.code = SYSINFO_RET_FAIL ∧ r.rng = fun _ => 7) ∧
    (∃ r, zbx_module_stress_random ⟨"stress.random", ["1000", "1"]⟩ init_result
        (fun _ => 7) = .ok r ∧ r.code = SYSINFO_RET_FAIL ∧ r.rng = fun _ => 7) :=
  ⟨(error_paths_keep_rng ⟨"stress.echo", []⟩ init_result (fun _ => 7)).1 (by decide),
   (error_paths_keep_rng ⟨"stress.random", []⟩ init_result (fun _ => 7)).2.1 (by decide),
   (error_paths_keep_rng ⟨"stress.random", ["1000", "1"]⟩ init_result (fun _ => 7)).2.2.1
     "1000" "1" rfl (by decide)⟩

theorem after_draws_eq (k : Nat) (rng : RngState) :
    after_draws k rng = fun n => rng (n + k) := by
  induction k generalizing rng with
  | zero => rfl
  | succ k ih =>
    show after_draws k (rand rng).2 = _
    rw [ih]
    rfl

/-! ## The handler of `stress.random.double` -/

theorem double_width : roundDouble (roundDouble ((2000 : ℚ) - 1) + 1) = 2000 := by
  have h1 : (2000 : ℚ) - 1 = ((1999 : Nat) : ℚ) := by norm_num
  have h2 : ((1999 : Nat) : ℚ) + 1 = ((2000 : Nat) : ℚ) := by norm_num
  rw [h1, roundDouble_natCast 1999 (by decide), h2, roundDouble_natCast 2000 (by decide)]
  norm_num

/-- The handler of `stress.random.double` on a raw value `raw` of the `int`
range: the quotient `raw / 2000` rounded to `double`, added to 1, the sum
rounded to `double`. -/
theorem random_double_eq (request : AGENT_REQUEST) (res : AGENT_RESULT) (rng : RngState)
    (h : rng 0 ≤ RAND_MAX) :
    zbx_module_stress_random_double request res rng =
      .ok ⟨SYSINFO_RET_OK,
        { res with type := res.type ||| AR_DOUBLE,
                   dbl := some (roundDouble (1 + roundDouble ((rng 0 : ℚ) / 2000))) },
        (rand rng).2⟩ := by
  unfold RAND_MAX at h
  have h1 : int_to_double (rand rng).1 = (rng 0 : ℚ) :=
    int_to_double_natCast (rng 0) (by norm_num; omega)
  unfold zbx_module_stress_random_double
  simp only [h1, double_width]
  rfl

/-- C20: the draws each handler consumes. The handlers of `stress.ping`,
`stress.echo` and `stress.file` return the generator they were given; a
successful return of `stress.random` (there is one for every accepted range
but the one from `INT_MIN` to `INT_MAX`), and every return of
`stress.random.int` and `stress.random.double`, carry the generator after one
draw;
`stress.random.str` returns the generator after 249 draws and
`stress.random.txt` after 506; this for every request and every generator whose
raw values lie in `[0, RAND_MAX]`. -/
theorem draw_counts (stat_ret : Int) (request : AGENT_REQUEST) (res : AGENT_RESULT)
    (rng : RngState) (h : rng.Valid) :
    (∃ r, zbx_module_stress_ping request res rng = .ok r ∧ r.rng = after_draws 0 rng) ∧
    (∃ r, zbx_module_stress_echo request res rng = .ok r ∧ r.rng = after_draws 0 rng) ∧
    (∃ r, zbx_module_stress_file stat_ret request res rng = .ok r ∧
      r.rng = after_draws 0 rng) ∧
    (∀ r, zbx_module_stress_random request res rng = .ok r → r.code = SYSINFO_RET_OK →
      r.rng = after_draws 1 rng) ∧
    (∀ p1 p2, request.params = [p1, p2] → atoi p1 ≤ atoi p2 →
      ¬ (atoi p1 = INT_MIN ∧ atoi p2 = INT_MAX) →
      ∃ r, zbx_module_stress_random request res rng = .ok r ∧
        r.code = SYSINFO_RET_OK ∧ r.rng = after_draws 1 rng) ∧
    (∃ r, zbx_module_stress_random_int request res rng = .ok r ∧
      r.rng = after_draws 1 rng) ∧
    (∃ r, zbx_module_stress_random_double request res rng = .ok r ∧
      r.rng = after_draws 1 rng) ∧
    (∃ r, zbx_module_stress_random_str request res rng = .ok r ∧
      r.rng = after_draws 249 rng) ∧
    (∃ r, zbx_module_stress_random_txt request res rng = .ok r ∧
      r.rng = after_draws 506 rng) := by
  refine ⟨⟨_, rfl, rfl⟩, ?_, ⟨_, file_eq stat_ret request res rng, rfl⟩, ?_, ?_,
    ⟨_, random_int_eq request res rng, rfl⟩,
    ⟨_, random_double_eq request res rng (h 0), rfl⟩, ?_, ?_⟩
  · by_cases hn : request.nparam = 1
    · obtain ⟨p, hp⟩ := request_of_nparam_one request hn
      rw [hp, echo_one_param]
      exact ⟨_, rfl, rfl⟩
    · exact ⟨_, echo_wrong_count request res rng hn, rfl⟩
  · intro r hr hc
    exact (random_ret_rng request res rng r hr).2 hc
  · intro p1 p2 hp hle hfull
    rw [request_of_params request p1 p2 hp, random_two_params, if_neg (not_lt.2 hle),
      if_neg (fun hz => hfull
        ((width_eq_zero_iff _ _ (atoi_range p1) (atoi_range p2) hle).1 hz))]
    exact ⟨_, rfl, rfl, rfl⟩
  · obtain ⟨bytes, hb, -⟩ := random_str_spec request res rng h
    exact ⟨_, hb, (after_draws_eq 249 rng).symm⟩
  · obtain ⟨bytes, hb, -⟩ := random_txt_spec request res rng h
    exact ⟨_, hb, (after_draws_eq 506 rng).symm⟩

/-- Witness of `draw_counts`: the request `1,1000` on the generator whose raw
values are all 7. -/
theorem draw_counts_witness :
    RngState.Valid (fun _ => 7) ∧
    (∀ r, zbx_module_stress_random ⟨"stress.random", ["1", "1000"]⟩ init_result
        (fun _ => 7) = .ok r → r.code = SYSINFO_RET_OK →
      r.rng = after_draws 1 (fun _ => 7)) ∧
    (∃ r, zbx_module_stress_random ⟨"stress.random", ["1", "1000"]⟩ init_result
        (fun _ => 7) = .ok r ∧ r.code = SYSINFO_RET_OK ∧
      r.rng = after_draws 1 (fun _ => 7)) ∧
    (∃ r, zbx_module_stress_random_str ⟨"stress.random", ["1", "1000"]⟩ init_result
        (fun _ => 7) = .ok r ∧ r.rng = after_draws 249 (fun _ => 7)) :=
  ⟨valid_const 7 (by decide),
   (draw_counts 0 ⟨"stress.random", ["1", "1000"]⟩ init_result (fun _ => 7)
     (valid_const 7 (by decide))).2.2.2.1,
   (draw_counts 0 ⟨"stress.random", ["1", "1000"]⟩ init_result (fun _ => 7)
     (valid_const 7 (by decide))).2.2.2.2.1 "1" "1000" rfl (by decide) (by decide),
   (draw_counts 0 ⟨"stress.random", ["1", "1000"]⟩ init_result (fun _ => 7)
     (valid_const 7 (by decide))).2.2.2.2.2.2.2.1⟩

/-- C10, failing input: on the raw value 4000000, which lies in
`[0, RAND_MAX]`, the handler of `stress.random.double` returns 2001, which is
not below 2000. -/
theorem random_double_out_of_range :
    (4000000 : Nat) ≤ RAND_MAX ∧
    zbx_module_stress_random_double ⟨"stress.random.double", ["anything"]⟩ init_result
        (fun _ => 4000000) =
      .ok ⟨SYSINFO_RET_OK, SET_DBL_RESULT init_result 2001, fun _ => 4000000⟩ ∧
    ¬ ((2001 : ℚ) < 2000) := by
  refine ⟨by decide, ?_, by norm_num⟩
  rw [random_double_eq _ _ _ (by decide)]
  have h1 : (((4000000 : Nat) : ℚ)) / 2000 = ((2000 : Nat) : ℚ) := by norm_num
  have h2 : (1 : ℚ) + ((2000 : Nat) : ℚ) = ((2001 : Nat) : ℚ) := by norm_num
  have h3 : roundDouble (1 + roundDouble ((((4000000 : Nat)) : ℚ) / 2000)) = 2001 := by
    rw [h1, roundDouble_natCast 2000 (by decide), h2, roundDouble_natCast 2001 (by decide)]
    norm_num
  simp only [h3]
  rfl

theorem abs_roundDouble_sub_le_of_nonneg (x : ℚ) (hx : 0 ≤ x) :
    |roundDouble x - x| ≤ x / (2 : ℚ) ^ (53 : ℕ) := by
  rcases lt_or_eq_of_le hx with hpos | hz
  · exact abs_roundDouble_sub_le x hpos
  · rw [← hz, roundDouble_zero]
    norm_num

/-- Two roundings, of the quotient and of the sum, keep the result within the
fraction `2 ^ (-52)` of the exact value `1 + a`, for `0 ≤ a ≤ 2 ^ 31`. -/
theorem double_sum_error (a : ℚ) (h0 : 0 ≤ a) (h1 : a ≤ 2147483648) :
    |roundDouble (1 + roundDouble a) - (1 + a)| ≤ (1 + a) / (2 : ℚ) ^ (52 : ℕ) := by
  have e1 := abs_roundDouble_sub_le_of_nonneg a h0
  have hy : 0 ≤ roundDouble a := roundDouble_nonneg h0
  have e2 := abs_roundDouble_sub_le_of_nonneg (1 + roundDouble a) (by linarith)
  rw [abs_le] at e1 e2 ⊢
  obtain ⟨e1a, e1b⟩ := e1
  obtain ⟨e2a, e2b⟩ := e2
  norm_num at e1a e1b e2a e2b ⊢
  constructor <;> linarith

/-- C18, as amended: for every raw value `raw` in `[0, RAND_MAX]` the handler of
`stress.random.double` returns `SYSINFO_RET_OK` with the value `v` of the
formula `1 + raw / 2000` evaluated in `double` arithmetic, the quotient and the
sum each rounded to the nearest `double`; `v` differs from the exact
`1 + raw / 2000` by at most the fraction `2 ^ (-52)` of it, and is equal to it
when `raw` is a multiple of 2000. -/
theorem random_double_formula (request : AGENT_REQUEST) (res : AGENT_RESULT)
    (rng : RngState) (h : rng 0 ≤ RAND_MAX) :
    ∃ v : ℚ,
      zbx_module_stress_random_double request res rng =
        .ok ⟨SYSINFO_RET_OK,
          { res with type := res.type ||| AR_DOUBLE, dbl := some v }, (rand rng).2⟩ ∧
      v = roundDouble (1 + roundDouble ((rng 0 : ℚ) / 2000)) ∧
      |v - (1 + (rng 0 : ℚ) / 2000)| ≤ (1 + (rng 0 : ℚ) / 2000) / (2 : ℚ) ^ (52 : ℕ) ∧
      (2000 ∣ rng 0 → v = 1 + (rng 0 : ℚ) / 2000) := by
  refine ⟨_, random_double_eq request res rng h, rfl, ?_, ?_⟩
  · unfold RAND_MAX at h
    have hq : ((rng 0 : ℕ) : ℚ) ≤ ((2147483647 : ℕ) : ℚ) := by exact_mod_cast h
    apply double_sum_error
    · positivity
    · rw [div_le_iff₀ (by norm_num)]
      push_cast at hq
      linarith
  · rintro ⟨c, hc⟩
    unfold RAND_MAX at h
    have h1 : ((rng 0 : ℕ) : ℚ) / 2000 = ((c : ℕ) : ℚ) := by
      rw [hc]
      push_cast
      field_simp
    have h2 : (1 : ℚ) + ((c : ℕ) : ℚ) = ((c + 1 : ℕ) : ℚ) := by
      push_cast
      ring
    rw [h1, roundDouble_natCast c (by norm_num; omega), h2,
      roundDouble_natCast (c + 1) (by norm_num; omega)]

/-- Witness of `random_double_formula`: the raw value 4000. -/
theorem random_double_formula_witness :
    (4000 : Nat) ≤ RAND_MAX ∧
    ∃ v : ℚ,
      zbx_module_stress_random_double ⟨"stress.random.double", []⟩ init_result
          (fun _ => 4000) =
        .ok ⟨SYSINFO_RET_OK,
          { init_result with type := init_result.type ||| AR_DOUBLE, dbl := some v },
          (rand (fun _ => 4000)).2⟩ ∧
      v = roundDouble (1 + roundDouble (((4000 : Nat) : ℚ) / 2000)) ∧
      |v - (1 + ((4000 : Nat) : ℚ) / 2000)| ≤
        (1 + ((4000 : Nat) : ℚ) / 2000) / (2 : ℚ) ^ (52 : ℕ) ∧
      (2000 ∣ 4000 → v = 1 + ((4000 : Nat) : ℚ) / 2000) :=
  ⟨by decide,
   random_double_formula ⟨"stress.random.double", []⟩ init_result (fun _ => 4000)
     (by decide)⟩

/-- C18, counterexample: on the raw value 1 the handler of
`stress.random.double` returns the `double`
`4505851427184181 / 2 ^ 52`, which is not `1 + 1 / 2000`. -/
theorem random_double_formula_counterexample :
    (1 : Nat) ≤ RAND_MAX ∧
    zbx_module_stress_random_double ⟨"stress.random.double", ["anything"]⟩ init_result
        (fun _ => 1) =
      .ok ⟨SYSINFO_RET_OK,
        SET_DBL_RESULT init_result (4505851427184181 / 4503599627370496), fun _ => 1⟩ ∧
    (4505851427184181 / 4503599627370496 : ℚ) ≠ 1 + 1 / 2000 := by
  refine ⟨by decide, ?_, by norm_num⟩
  rw [random_double_eq _ _ _ (by decide)]
  have h1 : roundDouble ((((1 : Nat)) : ℚ) / 2000) =
      1152921504606847 / 2305843009213693952 := by
    rw [roundDouble_eq_of _ (-11) 4611686018427388 (by norm_num) (by norm_num)
      (by rw [abs_lt]; constructor <;> norm_num)]
    norm_num
  have h2 : roundDouble (1 + 1152921504606847 / 2305843009213693952) =
      4505851427184181 / 4503599627370496 := by
    rw [roundDouble_eq_of _ 0 4505851427184181 (by norm_num) (by norm_num)
      (by rw [abs_lt]; constructor <;> norm_num)]
    norm_num
  simp only [h1, h2]
  rfl

/-! ## Result kinds -/

/-- What the handlers leave in a result that was empty, on every request and
every generator whose raw values lie in `[0, RAND_MAX]`: the handlers of
`stress.ping`, `stress.file` and `stress.random.int` return `SYSINFO_RET_OK`
with the unsigned integer alone, `stress.random.double` with the floating point
value alone, `stress.random.str` with the short text alone, `stress.random.txt`
with the long text alone; `stress.echo` returns either `SYSINFO_RET_OK` with the
short text alone or `SYSINFO_RET_FAIL` with the message alone; and
`stress.random` either returns `SYSINFO_RET_OK` with the unsigned integer alone,
or returns `SYSINFO_RET_FAIL` with the message alone, or faults on the division
by a zero width, which it only does for the range from `INT_MIN` to `INT_MAX`. -/
theorem result_kinds (stat_ret : Int) (request : AGENT_REQUEST) (rng : RngState)
    (h : rng.Valid) :
    (∃ r, zbx_module_stress_ping request init_result rng = .ok r ∧
      r.code = SYSINFO_RET_OK ∧ only_variant AR_UINT64 r.result) ∧
    (∃ r, zbx_module_stress_file stat_ret request init_result rng = .ok r ∧
      r.code = SYSINFO_RET_OK ∧ only_variant AR_UINT64 r.result) ∧
    (∃ r, zbx_module_stress_random_int request init_result rng = .ok r ∧
      r.code = SYSINFO_RET_OK ∧ only_variant AR_UINT64 r.result) ∧
    (∃ r, zbx_module_stress_random_double request init_result rng = .ok r ∧
      r.code = SYSINFO_RET_OK ∧ only_variant AR_DOUBLE r.result) ∧
    (∃ r, zbx_module_stress_random_str request init_result rng = .ok r ∧
      r.code = SYSINFO_RET_OK ∧ only_variant AR_STRING r.result) ∧
    (∃ r, zbx_module_stress_random_txt request init_result rng = .ok r ∧
      r.code = SYSINFO_RET_OK ∧ only_variant AR_TEXT r.result) ∧
    (∃ r, zbx_module_stress_echo request init_result rng = .ok r ∧
      ((r.code = SYSINFO_RET_OK ∧ only_variant AR_STRING r.result) ∨
       (r.code = SYSINFO_RET_FAIL ∧ only_variant AR_MESSAGE r.result))) ∧
    ((∃ r, zbx_module_stress_random request init_result rng = .ok r ∧
      ((r.code = SYSINFO_RET_OK ∧ only_variant AR_UINT64 r.result) ∨
       (r.code = SYSINFO_RET_FAIL ∧ only_variant AR_MESSAGE r.result))) ∨
     (zbx_module_stress_random request init_result rng = .error Fault.divByZero ∧
      ∃ p1 p2, request.params = [p1, p2] ∧ atoi p1 = INT_MIN ∧ atoi p2 = INT_MAX)) := by
  refine ⟨⟨_, rfl, rfl, rfl, rfl⟩, ⟨_, file_eq stat_ret request init_result rng, rfl, rfl, rfl⟩,
    ⟨_, random_int_eq request init_result rng, rfl, rfl, rfl⟩,
    ⟨_, random_double_eq request init_result rng (h 0), rfl, rfl, rfl⟩, ?_, ?_, ?_, ?_⟩
  · obtain ⟨bytes, hb, -⟩ := random_str_spec request init_result rng h
    exact ⟨_, hb, rfl, rfl, rfl⟩
  · obtain ⟨bytes, hb, -⟩ := random_txt_spec request init_result rng h
    exact ⟨_, hb, rfl, rfl, rfl⟩
  · by_cases hn : request.nparam = 1
    · obtain ⟨p, hp⟩ := request_of_nparam_one request hn
      rw [hp, echo_one_param]
      exact ⟨_, rfl, Or.inl ⟨rfl, rfl, rfl⟩⟩
    · exact ⟨_, echo_wrong_count request init_result rng hn, Or.inr ⟨rfl, rfl, rfl⟩⟩
  · by_cases hn : request.nparam = 2
    · obtain ⟨p1, p2, hp⟩ := request_of_nparam_two request hn
      rw [hp, random_two_params]
      split
      · exact Or.inl ⟨_, rfl, Or.inr ⟨rfl, rfl, rfl⟩⟩
      · rename_i hle
        split
        · rename_i hz
          exact Or.inr ⟨rfl, p1, p2, rfl,
            (width_eq_zero_iff _ _ (atoi_range p1) (atoi_range p2) (not_lt.1 hle)).1 hz⟩
        · exact Or.inl ⟨_, rfl, Or.inl ⟨rfl, rfl, rfl⟩⟩
    · exact Or.inl ⟨_, random_wrong_count request init_result rng hn,
        Or.inr ⟨rfl, rfl, rfl⟩⟩

/-- C17, failing input: the call of the handler of `stress.random` with the
parameters `-2147483648,2147483647` on an empty result does not return: it
faults on the division by the zero width, so that no call returns a result with
a populated variant. -/
theorem result_kinds_fault_at_full_range :
    zbx_module_stress_random ⟨"stress.random", ["-2147483648", "2147483647"]⟩
        init_result (fun _ => 7) = .error Fault.divByZero ∧
    ¬ ∃ r, zbx_module_stress_random ⟨"stress.random", ["-2147483648", "2147483647"]⟩
        init_result (fun _ => 7) = .ok r ∧ populated r.result ≠ [] := by
  have hf : zbx_module_stress_random ⟨"stress.random", ["-2147483648", "2147483647"]⟩
      init_result (fun _ => 7) = .error Fault.divByZero := by
    rw [random_two_params]
    rfl
  refine ⟨hf, ?_⟩
  rintro ⟨r, hr, -⟩
  rw [hf] at hr
  cases hr

end ZabbixStress
